import Mathlib

/-!
Shallow embedding of the convex ratelimiter component core
(`src/component/internal.ts` and the mutation handlers that apply its
updates).  JavaScript numbers are modelled as exact rationals; the
random draws (`Math.random()`-derived shard indices and window phases)
are explicit parameters; thrown exceptions are modelled with
`Except String`.
-/

namespace RateLimiter

/-- The two rate-limit strategies (`config.kind`). -/
inductive Kind where
  | tokenBucket
  | fixedWindow
  deriving DecidableEq, Repr

/-- `RateLimitConfig` from `shared.ts`: a tagged union with optional
`capacity`, `maxReserved`, `shards` and (fixed window only) `start`. -/
structure RateLimitConfig where
  kind : Kind
  rate : ℚ
  period : ℚ
  capacity : Option ℚ := none
  maxReserved : Option ℚ := none
  shards : Option ℚ := none
  start : Option ℚ := none
  deriving DecidableEq, Repr

/-- A persisted shard row: `{value, ts}`. -/
structure ShardState where
  value : ℚ
  ts : ℚ
  deriving DecidableEq, Repr

/-- The `{ok, retryAfter}` part of an evaluation result. -/
structure Status where
  ok : Bool
  retryAfter : Option ℚ
  deriving DecidableEq, Repr

/-- Full result of `_checkRateLimitInternal`: status plus the new
`value`/`ts` for the shard. -/
structure EvalResult where
  status : Status
  value : ℚ
  ts : ℚ
  deriving DecidableEq, Repr

/-- Result of `checkShard`: the evaluation result together with the
probed shard index and the row that was read (`existing`). -/
structure ShardCheck where
  status : Status
  value : ℚ
  ts : ℚ
  shard : ℚ
  existing : Option ShardState
  deriving DecidableEq, Repr

/-- A pending write: new `value`/`ts` for shard `shard`, patching
`existing` when present and inserting a fresh row otherwise. -/
structure Update where
  value : ℚ
  ts : ℚ
  existing : Option ShardState
  shard : ℚ
  deriving DecidableEq, Repr

/-- JavaScript truthiness of an optional number: `undefined` and `0`
are falsy. -/
def qTruthy : Option ℚ → Bool
  | none => false
  | some x => decide (x ≠ 0)

/-- `config.shards || 1`. -/
def shardsOrOne (shards : Option ℚ) : ℚ :=
  if qTruthy shards then shards.getD 1 else 1

/-- JavaScript `a % n` for nonnegative `a` and positive `n` (the only
way the source uses it, to wrap a shard index). -/
def jsMod (a n : ℚ) : ℚ := a - n * ⌊a / n⌋

/-- `MIN_CHOOSE_TWO`: with fewer than 3 shards only one shard is probed. -/
def MIN_CHOOSE_TWO : ℚ := 3

/-- `_checkRateLimitInternal` from `internal.ts`.  `now` is the value of
`Date.now()` during the call and `randPhase` the value of
`Math.floor(Math.random() * config.period)` that a fresh fixed-window
shard would draw for its window phase. -/
def _checkRateLimitInternal (existing : Option ShardState) (config : RateLimitConfig)
    (count : ℚ) (reserve : Bool) (now randPhase : ℚ) : EvalResult :=
  let max := config.capacity.getD config.rate
  let state : ShardState := existing.getD
    ⟨max, if config.kind = Kind.fixedWindow then config.start.getD randPhase else now⟩
  let vtr : ℚ × ℚ × Option ℚ :=
    match config.kind with
    | Kind.tokenBucket =>
      let rate := config.rate / config.period
      let value := min (state.value + (now - state.ts) * rate) max - count
      (value, now, if value < 0 then some (-value / rate) else none)
    | Kind.fixedWindow =>
      let elapsedWindows : ℤ := ⌊(now - state.ts) / config.period⌋
      let value := min (state.value + config.rate * elapsedWindows) max - count
      let ts := state.ts + elapsedWindows * config.period
      (value, ts,
        if value < 0 then some (ts + config.period * ⌈-value / config.rate⌉ - now) else none)
  let value := vtr.1
  let ts := vtr.2.1
  let retryAfter := vtr.2.2
  if value < 0 ∧ (reserve = false ∨
      (qTruthy config.maxReserved = true ∧ config.maxReserved.getD 0 < -value)) then
    ⟨⟨false, retryAfter⟩, value, ts⟩
  else
    ⟨⟨true, retryAfter⟩, value, ts⟩

/-- `validateRequest` from `internal.ts`: the synchronous sanity check,
run on the unsharded config.  `Except.error` models a thrown error. -/
def validateRequest (config : RateLimitConfig) (count : Option ℚ) (reserve : Bool) :
    Except String Unit :=
  let shards := config.shards.getD 1
  if shards ≤ 0 then .error "Shards must be a positive number"
  else
    let shardFactor := if shards < MIN_CHOOSE_TWO then 1 else shards / 2
    let max := config.capacity.getD config.rate / shardFactor
    let c := count.getD 1
    if reserve then
      if qTruthy config.maxReserved then
        if max + config.maxReserved.getD 0 / shardFactor < c then
          .error "count exceeds max plus maxReserved"
        else .ok ()
      else .ok ()
    else if max < c then .error "count exceeds max" else .ok ()

/-- `shardConfig` from `internal.ts`: divide `rate`, `capacity` and
`maxReserved` by the shard count (skipping falsy fields, as `/=` is
guarded by truthiness checks in the source). -/
def shardConfig (config : RateLimitConfig) (shards : Option ℚ) : RateLimitConfig :=
  if qTruthy shards = false ∨ shards = some 1 then config
  else
    let s := shards.getD 1
    { config with
      rate := config.rate / s
      capacity :=
        if qTruthy config.capacity then some (config.capacity.getD 0 / s)
        else config.capacity
      maxReserved :=
        if qTruthy config.maxReserved then some (config.maxReserved.getD 0 / s)
        else config.maxReserved }

/-- `checkShard`: read the row for `shard` and run the evaluator on it. -/
def checkShard (db : ℚ → Option ShardState) (config : RateLimitConfig)
    (count : Option ℚ) (reserve : Bool) (now phase shard : ℚ) : ShardCheck :=
  let existing := db shard
  let r := _checkRateLimitInternal existing config (count.getD 1) reserve now phase
  ⟨r.status, r.value, r.ts, shard, existing⟩

/-- `returnSingle`: a decision backed by one shard; its update is kept
only when the decision is ok. -/
def returnSingle (result : ShardCheck) : Status × List Update :=
  (result.status,
    if result.status.ok then [⟨result.value, result.ts, result.existing, result.shard⟩] else [])

/-- The tail of `checkRateLimitSharded` that resolves the two rebalanced
re-evaluations (`oneShared`/`twoShared`) once both shards have failed
individually.  The source contains no throw in this region. -/
def combineShared (one two : ShardCheck) (oneShared twoShared : EvalResult) :
    Except String (Status × List Update) :=
  if oneShared.status.ok = false ∧ twoShared.status.ok = false then
    .ok (⟨false, some (max (oneShared.status.retryAfter.getD 0)
        (twoShared.status.retryAfter.getD 0))⟩, [])
  else
    let ok := oneShared.status.ok && twoShared.status.ok
    let updates : List Update :=
      if ok then
        [⟨oneShared.value, oneShared.ts, one.existing, one.shard⟩,
         ⟨twoShared.value, twoShared.ts, two.existing, two.shard⟩]
      else []
    if qTruthy oneShared.status.retryAfter = false ∧
        qTruthy twoShared.status.retryAfter = false then
      .ok (⟨true, none⟩, updates)
    else
      .ok (⟨ok, some (max (oneShared.status.retryAfter.getD 0)
          (twoShared.status.retryAfter.getD 0))⟩, updates)

/-- The body of `checkRateLimitSharded` after validation has passed: probe
shard A, possibly probe a second shard, resolve, falling back to the combine
step when both fail individually. -/
def shardedBody (db : ℚ → Option ShardState) (config : RateLimitConfig)
    (count : Option ℚ) (reserve : Bool) (now shardA randB pA pB pA2 pB2 : ℚ) :
    Except String (Status × List Update) :=
  let shards := shardsOrOne config.shards
  let cfg := shardConfig config config.shards
  let one := checkShard db cfg count reserve now pA shardA
  if one.existing = none ∨ shards < MIN_CHOOSE_TWO then .ok (returnSingle one)
  else
    let two := checkShard db cfg count reserve now pB (jsMod (one.shard + 1 + randB) shards)
    if one.status.ok = true ∧ two.status.ok = false then .ok (returnSingle one)
    else if one.status.ok = false ∧ two.status.ok = true then .ok (returnSingle two)
    else if one.status.ok = true ∧ two.status.ok = true then
      .ok (returnSingle (if two.value < one.value then one else two))
    else if one.status.ok = true ∨ two.status.ok = true then .error "Unreachable"
    else
      let c := count.getD 1
      let balance := one.value + two.value + c
      let oneShared :=
        _checkRateLimitInternal one.existing cfg (one.value + c - balance / 2) reserve now pA2
      let twoShared :=
        _checkRateLimitInternal two.existing cfg (two.value + c - balance / 2) reserve now pB2
      combineShared one two oneShared twoShared

/-- `checkRateLimitSharded` from `internal.ts`.  The random draws are
explicit: `shardA` is the first probed index
(`Math.floor(Math.random() * shards)`), `randB` the draw for the second
(`Math.floor(Math.random() * (shards - 1))`), and `pA pB pA2 pB2` the
window phases the four potential evaluator calls would draw. -/
def checkRateLimitSharded (db : ℚ → Option ShardState) (config : RateLimitConfig)
    (count : Option ℚ) (reserve : Bool) (now shardA randB pA pB pA2 pB2 : ℚ) :
    Except String (Status × List Update) :=
  match validateRequest config count reserve with
  | .error e => .error e
  | .ok _ => shardedBody db config count reserve now shardA randB pA pB pA2 pB2

/-- `checkRateLimitOrThrow`: converts a rejection into a thrown
`RateLimited` error when the caller asked for `throws`. -/
def checkRateLimitOrThrow (db : ℚ → Option ShardState) (config : RateLimitConfig)
    (count : Option ℚ) (reserve throws : Bool) (now shardA randB pA pB pA2 pB2 : ℚ) :
    Except String (Status × List Update) :=
  match checkRateLimitSharded db config count reserve now shardA randB pA pB pA2 pB2 with
  | .error e => .error e
  | .ok (status, updates) =>
    if status.ok = false ∧ throws = true then .error "RateLimited"
    else .ok (status, updates)

/-- Apply the returned updates to the store: each update patches the
existing row or inserts a fresh one, either way leaving `{value, ts}`
at that shard index. -/
def applyUpdates (db : ℚ → Option ShardState) (updates : List Update) :
    ℚ → Option ShardState :=
  updates.foldl (fun d u => fun i => if i = u.shard then some ⟨u.value, u.ts⟩ else d i) db

/-- The `rateLimit` mutation handler (consume): run the sharded check
and persist every returned update. -/
def rateLimit (db : ℚ → Option ShardState) (config : RateLimitConfig)
    (count : Option ℚ) (reserve throws : Bool) (now shardA randB pA pB pA2 pB2 : ℚ) :
    Except String (Status × (ℚ → Option ShardState)) :=
  match checkRateLimitOrThrow db config count reserve throws now shardA randB pA pB pA2 pB2 with
  | .error e => .error e
  | .ok (status, updates) => .ok (status, applyUpdates db updates)

/-! ### Derived views of the evaluator, for proofs -/

/-- The state the evaluator works from: the stored row, or the synthesized
fresh state (`value = max`, `ts = now` for token bucket, `ts = start` or the
random phase for fixed window). -/
def syntheticState (existing : Option ShardState) (config : RateLimitConfig)
    (now ph : ℚ) : ShardState :=
  existing.getD ⟨config.capacity.getD config.rate,
    if config.kind = Kind.fixedWindow then config.start.getD ph else now⟩

/-- The pre-subtraction replenished value the evaluator computes before
taking `count` out. -/
def replenished (existing : Option ShardState) (config : RateLimitConfig)
    (now ph : ℚ) : ℚ :=
  let state := syntheticState existing config now ph
  let mx := config.capacity.getD config.rate
  match config.kind with
  | Kind.tokenBucket =>
    min (state.value + (now - state.ts) * (config.rate / config.period)) mx
  | Kind.fixedWindow =>
    min (state.value + config.rate * ⌊(now - state.ts) / config.period⌋) mx

/-- The new `ts` the evaluator writes. -/
def evalTs (existing : Option ShardState) (config : RateLimitConfig)
    (now ph : ℚ) : ℚ :=
  match config.kind with
  | Kind.tokenBucket => now
  | Kind.fixedWindow =>
    (syntheticState existing config now ph).ts +
      ⌊(now - (syntheticState existing config now ph).ts) / config.period⌋ * config.period

/-- The `retryAfter` the evaluator computes for a deficit `value < 0`. -/
def evalRetry (existing : Option ShardState) (config : RateLimitConfig)
    (now ph value : ℚ) : ℚ :=
  match config.kind with
  | Kind.tokenBucket => -value / (config.rate / config.period)
  | Kind.fixedWindow =>
    evalTs existing config now ph + config.period * ⌈-value / config.rate⌉ - now

theorem eval_eq (e : Option ShardState) (c : RateLimitConfig) (cnt : ℚ) (rsv : Bool)
    (now ph : ℚ) :
    _checkRateLimitInternal e c cnt rsv now ph =
      if replenished e c now ph - cnt < 0 ∧ (rsv = false ∨
          (qTruthy c.maxReserved = true ∧ c.maxReserved.getD 0 < -(replenished e c now ph - cnt)))
      then ⟨⟨false, if replenished e c now ph - cnt < 0
              then some (evalRetry e c now ph (replenished e c now ph - cnt)) else none⟩,
            replenished e c now ph - cnt, evalTs e c now ph⟩
      else ⟨⟨true, if replenished e c now ph - cnt < 0
              then some (evalRetry e c now ph (replenished e c now ph - cnt)) else none⟩,
            replenished e c now ph - cnt, evalTs e c now ph⟩ := by
  cases hk : c.kind <;>
    simp only [_checkRateLimitInternal, replenished, evalTs, evalRetry, syntheticState, hk]

theorem eval_value (e : Option ShardState) (c : RateLimitConfig) (cnt : ℚ) (rsv : Bool)
    (now ph : ℚ) :
    (_checkRateLimitInternal e c cnt rsv now ph).value = replenished e c now ph - cnt := by
  rw [eval_eq]; split_ifs <;> rfl

theorem eval_ts (e : Option ShardState) (c : RateLimitConfig) (cnt : ℚ) (rsv : Bool)
    (now ph : ℚ) :
    (_checkRateLimitInternal e c cnt rsv now ph).ts = evalTs e c now ph := by
  rw [eval_eq]; split_ifs <;> rfl

theorem eval_retryAfter (e : Option ShardState) (c : RateLimitConfig) (cnt : ℚ) (rsv : Bool)
    (now ph : ℚ) :
    (_checkRateLimitInternal e c cnt rsv now ph).status.retryAfter =
      if replenished e c now ph - cnt < 0
      then some (evalRetry e c now ph (replenished e c now ph - cnt)) else none := by
  rw [eval_eq]; split_ifs <;> rfl

theorem eval_ok_false_iff (e : Option ShardState) (c : RateLimitConfig) (cnt : ℚ) (rsv : Bool)
    (now ph : ℚ) :
    (_checkRateLimitInternal e c cnt rsv now ph).status.ok = false ↔
      (replenished e c now ph - cnt < 0 ∧ (rsv = false ∨
        (qTruthy c.maxReserved = true ∧
          c.maxReserved.getD 0 < -(replenished e c now ph - cnt)))) := by
  rw [eval_eq]
  by_cases h : (replenished e c now ph - cnt < 0 ∧ (rsv = false ∨
      (qTruthy c.maxReserved = true ∧ c.maxReserved.getD 0 < -(replenished e c now ph - cnt))))
  · rw [if_pos h]; exact iff_of_true rfl h
  · rw [if_neg h]; exact iff_of_false (by simp) h

theorem replenished_le_max (e : Option ShardState) (c : RateLimitConfig) (now ph : ℚ) :
    replenished e c now ph ≤ c.capacity.getD c.rate := by
  cases hk : c.kind <;> simp only [replenished, hk] <;> exact min_le_right _ _

theorem replenished_phase_irrel (s : ShardState) (c : RateLimitConfig) (now ph ph' : ℚ) :
    replenished (some s) c now ph = replenished (some s) c now ph' := rfl

theorem replenished_fresh (c : RateLimitConfig) (now ph : ℚ)
    (hrate : 0 ≤ c.rate) (hper : 0 < c.period)
    (hstart : c.kind = Kind.fixedWindow → c.start.getD ph ≤ now) :
    replenished none c now ph = c.capacity.getD c.rate := by
  cases hk : c.kind
  · simp [replenished, syntheticState, hk]
  · have h0 : c.start.getD ph ≤ now := hstart hk
    have hfl : (0 : ℚ) ≤ (⌊(now - c.start.getD ph) / c.period⌋ : ℤ) := by
      exact_mod_cast Int.floor_nonneg.mpr (div_nonneg (by linarith) hper.le)
    have hre : replenished none c now ph =
        min (c.capacity.getD c.rate + c.rate * ⌊(now - c.start.getD ph) / c.period⌋)
          (c.capacity.getD c.rate) := by
      simp [replenished, syntheticState, hk]
    rw [hre, min_eq_right (by nlinarith)]

theorem eval_retry_pos (e : Option ShardState) (c : RateLimitConfig) (now ph v : ℚ)
    (hrate : 0 < c.rate) (hper : 0 < c.period) (hv : v < 0) :
    0 < evalRetry e c now ph v := by
  cases hk : c.kind <;> simp only [evalRetry, evalTs, hk]
  · exact div_pos (neg_pos.mpr hv) (div_pos hrate hper)
  · have h1 : (now - (syntheticState e c now ph).ts) / c.period <
        ⌊(now - (syntheticState e c now ph).ts) / c.period⌋ + 1 := Int.lt_floor_add_one _
    have h1' : now - (syntheticState e c now ph).ts <
        ((⌊(now - (syntheticState e c now ph).ts) / c.period⌋ : ℚ) + 1) * c.period :=
      (div_lt_iff hper).mp h1
    have h2 : (1 : ℚ) ≤ (⌈-v / c.rate⌉ : ℤ) := by
      exact_mod_cast Int.ceil_pos.mpr (div_pos (neg_pos.mpr hv) hrate)
    nlinarith [mul_le_mul_of_nonneg_left h2 hper.le]

theorem eval_not_ok (e : Option ShardState) (c : RateLimitConfig) (cnt : ℚ) (rsv : Bool)
    (now ph : ℚ) (hrate : 0 < c.rate) (hper : 0 < c.period)
    (h : (_checkRateLimitInternal e c cnt rsv now ph).status.ok = false) :
    ∃ t, (_checkRateLimitInternal e c cnt rsv now ph).status.retryAfter = some t ∧ 0 < t ∧
      (_checkRateLimitInternal e c cnt rsv now ph).value < 0 := by
  have hv : replenished e c now ph - cnt < 0 := ((eval_ok_false_iff e c cnt rsv now ph).mp h).1
  refine ⟨evalRetry e c now ph (replenished e c now ph - cnt), ?_, ?_, ?_⟩
  · rw [eval_retryAfter, if_pos hv]
  · exact eval_retry_pos e c now ph _ hrate hper hv
  · rw [eval_value]; exact hv

theorem validate_ok_shards_pos (config : RateLimitConfig) (count : Option ℚ) (reserve : Bool)
    (h : validateRequest config count reserve = .ok ()) : 0 < config.shards.getD 1 := by
  by_contra hs
  push_neg at hs
  simp only [validateRequest, if_pos hs] at h
  exact absurd h (by simp)

theorem shardConfig_period (config : RateLimitConfig) (shards : Option ℚ) :
    (shardConfig config shards).period = config.period := by
  simp only [shardConfig]; split_ifs <;> rfl

theorem shardConfig_kind (config : RateLimitConfig) (shards : Option ℚ) :
    (shardConfig config shards).kind = config.kind := by
  simp only [shardConfig]; split_ifs <;> rfl

theorem shardConfig_start (config : RateLimitConfig) (shards : Option ℚ) :
    (shardConfig config shards).start = config.start := by
  simp only [shardConfig]; split_ifs <;> rfl

theorem shardsOrOne_of_pos (shards : Option ℚ) (h : 0 < shards.getD 1) :
    shardsOrOne shards = shards.getD 1 := by
  cases shards with
  | none => simp [shardsOrOne, qTruthy]
  | some s =>
    have : s ≠ 0 := by simpa using ne_of_gt h
    simp [shardsOrOne, qTruthy, this]

theorem shardConfig_rate_pos (config : RateLimitConfig) (h : 0 < config.shards.getD 1)
    (hr : 0 < config.rate) : 0 < (shardConfig config config.shards).rate := by
  cases hsh : config.shards with
  | none => simp [shardConfig, qTruthy, hr]
  | some s =>
    have hs : 0 < s := by rw [hsh] at h; simpa using h
    by_cases h1 : s = 1
    · simp [shardConfig, hsh, h1, qTruthy, hr]
    · have hne : s ≠ 0 := ne_of_gt hs
      simp [shardConfig, hsh, h1, qTruthy, hne]
      exact div_pos hr hs

theorem shardConfig_max_eq (config : RateLimitConfig) (h : 0 < config.shards.getD 1) :
    (shardConfig config config.shards).capacity.getD (shardConfig config config.shards).rate =
      (config.capacity.getD config.rate) / shardsOrOne config.shards := by
  rw [shardsOrOne_of_pos config.shards h]
  cases hsh : config.shards with
  | none => simp [shardConfig, qTruthy]
  | some s =>
    have hs : 0 < s := by rw [hsh] at h; simpa using h
    have hne : s ≠ 0 := ne_of_gt hs
    by_cases h1 : s = 1
    · simp [shardConfig, hsh, h1, qTruthy]
    · cases hc : config.capacity with
      | none => simp [shardConfig, hsh, h1, qTruthy, hne, hc]
      | some cv =>
        by_cases hcv : cv = 0
        · simp [shardConfig, hsh, h1, qTruthy, hne, hc, hcv]
        · simp [shardConfig, hsh, h1, qTruthy, hne, hc, hcv]

theorem shardConfig_maxReserved_pos (config : RateLimitConfig) (m : ℚ)
    (h : 0 < config.shards.getD 1) (hm : config.maxReserved = some m) (hmp : 0 < m) :
    (shardConfig config config.shards).maxReserved =
      some (m / shardsOrOne config.shards) ∧ 0 < m / shardsOrOne config.shards := by
  rw [shardsOrOne_of_pos config.shards h]
  have hmne : m ≠ 0 := ne_of_gt hmp
  cases hsh : config.shards with
  | none =>
    constructor
    · simp [shardConfig, qTruthy, hm]
    · simpa using hmp
  | some s =>
    have hs : 0 < s := by rw [hsh] at h; simpa using h
    have hne : s ≠ 0 := ne_of_gt hs
    by_cases h1 : s = 1
    · constructor
      · simp [shardConfig, hsh, h1, qTruthy, hm]
      · simp [h1]; exact hmp
    · constructor
      · simp [shardConfig, hsh, h1, qTruthy, hne, hm, hmne]
      · simp; exact div_pos hmp hs

theorem qTruthy_false_iff (o : Option ℚ) :
    qTruthy o = false ↔ o = none ∨ o = some 0 := by
  cases o with
  | none => simp [qTruthy]
  | some x => simp [qTruthy]

/-! ### Claim theorems -/

/-- C2: for a token-bucket config (`rate > 0`, `period > 0`), an existing shard
state and `now ≥ state.ts`, the evaluator returns
`value = min(state.value + (now - state.ts)·(rate/period), max) - count` with
`max = capacity ?? rate`, sets `ts = now`, and whenever `value < 0` computes
`retryAfter = -value / (rate/period)`. -/
theorem c2_token_bucket_evaluator (config : RateLimitConfig) (s : ShardState)
    (count now ph : ℚ) (reserve : Bool)
    (hkind : config.kind = Kind.tokenBucket)
    (hrate : 0 < config.rate) (hper : 0 < config.period) (hnow : s.ts ≤ now) :
    (_checkRateLimitInternal (some s) config count reserve now ph).value =
      min (s.value + (now - s.ts) * (config.rate / config.period))
        (config.capacity.getD config.rate) - count ∧
    (_checkRateLimitInternal (some s) config count reserve now ph).ts = now ∧
    ((_checkRateLimitInternal (some s) config count reserve now ph).value < 0 →
      (_checkRateLimitInternal (some s) config count reserve now ph).status.retryAfter =
        some (-(_checkRateLimitInternal (some s) config count reserve now ph).value /
          (config.rate / config.period))) := by
  have hrep : replenished (some s) config now ph =
      min (s.value + (now - s.ts) * (config.rate / config.period))
        (config.capacity.getD config.rate) := by
    simp [replenished, syntheticState, hkind]
  refine ⟨?_, ?_, ?_⟩
  · rw [eval_value, hrep]
  · rw [eval_ts]; simp [evalTs, hkind]
  · intro hv
    rw [eval_value] at hv
    rw [eval_retryAfter, if_pos hv, eval_value]
    simp [evalRetry, hkind]

/-- C2 witness: the token-bucket formulas at a concrete input. -/
theorem c2_witness :
    (_checkRateLimitInternal (some ⟨0, 0⟩)
        ⟨Kind.tokenBucket, 1, 1000, none, none, none, none⟩ 1 false 500 0).value =
      min ((0 : ℚ) + (500 - 0) * (1 / 1000)) 1 - 1 ∧
    (_checkRateLimitInternal (some ⟨0, 0⟩)
        ⟨Kind.tokenBucket, 1, 1000, none, none, none, none⟩ 1 false 500 0).ts = 500 ∧
    ((_checkRateLimitInternal (some ⟨0, 0⟩)
        ⟨Kind.tokenBucket, 1, 1000, none, none, none, none⟩ 1 false 500 0).value < 0 →
      (_checkRateLimitInternal (some ⟨0, 0⟩)
          ⟨Kind.tokenBucket, 1, 1000, none, none, none, none⟩ 1 false 500 0).status.retryAfter =
        some (-(_checkRateLimitInternal (some ⟨0, 0⟩)
            ⟨Kind.tokenBucket, 1, 1000, none, none, none, none⟩ 1 false 500 0).value /
          (1 / 1000))) :=
  c2_token_bucket_evaluator ⟨Kind.tokenBucket, 1, 1000, none, none, none, none⟩
    ⟨0, 0⟩ 1 500 0 false rfl (by norm_num) (by norm_num) (by norm_num)

/-- C3: for a fixed-window config (`rate > 0`, `period > 0`), an existing shard
state with `state.ts ≤ now`, the evaluator returns
`value = min(state.value + rate·windowsElapsed, max) - count` with
`windowsElapsed = ⌊(now - state.ts)/period⌋`, sets
`ts = state.ts + windowsElapsed·period` (so `ts = state.ts + k·period` for some
natural `k`, never wall-clock `now`), and whenever `value < 0` computes
`retryAfter = ts + period·⌈-value/rate⌉ - now`. -/
theorem c3_fixed_window_evaluator (config : RateLimitConfig) (s : ShardState)
    (count now ph : ℚ) (reserve : Bool)
    (hkind : config.kind = Kind.fixedWindow)
    (hrate : 0 < config.rate) (hper : 0 < config.period) (hnow : s.ts ≤ now) :
    (_checkRateLimitInternal (some s) config count reserve now ph).value =
      min (s.value + config.rate * ⌊(now - s.ts) / config.period⌋)
        (config.capacity.getD config.rate) - count ∧
    (_checkRateLimitInternal (some s) config count reserve now ph).ts =
      s.ts + ⌊(now - s.ts) / config.period⌋ * config.period ∧
    (∃ k : ℕ, (_checkRateLimitInternal (some s) config count reserve now ph).ts =
      s.ts + (k : ℚ) * config.period) ∧
    ((_checkRateLimitInternal (some s) config count reserve now ph).value < 0 →
      (_checkRateLimitInternal (some s) config count reserve now ph).status.retryAfter =
        some ((_checkRateLimitInternal (some s) config count reserve now ph).ts +
          config.period *
            ⌈-(_checkRateLimitInternal (some s) config count reserve now ph).value /
              config.rate⌉ - now)) := by
  have hrep : replenished (some s) config now ph =
      min (s.value + config.rate * ⌊(now - s.ts) / config.period⌋)
        (config.capacity.getD config.rate) := by
    simp [replenished, syntheticState, hkind]
  have hts : (_checkRateLimitInternal (some s) config count reserve now ph).ts =
      s.ts + ⌊(now - s.ts) / config.period⌋ * config.period := by
    rw [eval_ts]; simp [evalTs, syntheticState, hkind]
  have hfl : (0 : ℤ) ≤ ⌊(now - s.ts) / config.period⌋ :=
    Int.floor_nonneg.mpr (div_nonneg (by linarith) hper.le)
  refine ⟨?_, hts, ?_, ?_⟩
  · rw [eval_value, hrep]
  · exact ⟨⌊(now - s.ts) / config.period⌋.toNat, by
      rw [hts]
      congr 1
      congr 1
      exact_mod_cast (Int.toNat_of_nonneg hfl).symm⟩
  · intro hv
    rw [eval_value] at hv
    rw [eval_retryAfter, if_pos hv, eval_value, hts]
    simp [evalRetry, evalTs, syntheticState, hkind]

/-- C3 witness: the fixed-window formulas at a concrete input. -/
theorem c3_witness :
    (_checkRateLimitInternal (some ⟨5, 0⟩)
        ⟨Kind.fixedWindow, 10, 60000, none, none, none, none⟩ 6 false 60000 0).value =
      min ((5 : ℚ) + 10 * ⌊((60000 : ℚ) - 0) / 60000⌋) 10 - 6 ∧
    (_checkRateLimitInternal (some ⟨5, 0⟩)
        ⟨Kind.fixedWindow, 10, 60000, none, none, none, none⟩ 6 false 60000 0).ts =
      0 + ⌊((60000 : ℚ) - 0) / 60000⌋ * 60000 ∧
    (∃ k : ℕ, (_checkRateLimitInternal (some ⟨5, 0⟩)
        ⟨Kind.fixedWindow, 10, 60000, none, none, none, none⟩ 6 false 60000 0).ts =
      0 + (k : ℚ) * 60000) ∧
    ((_checkRateLimitInternal (some ⟨5, 0⟩)
        ⟨Kind.fixedWindow, 10, 60000, none, none, none, none⟩ 6 false 60000 0).value < 0 →
      (_checkRateLimitInternal (some ⟨5, 0⟩)
          ⟨Kind.fixedWindow, 10, 60000, none, none, none, none⟩ 6 false 60000 0).status.retryAfter =
        some ((_checkRateLimitInternal (some ⟨5, 0⟩)
            ⟨Kind.fixedWindow, 10, 60000, none, none, none, none⟩ 6 false 60000 0).ts +
          60000 * ⌈-(_checkRateLimitInternal (some ⟨5, 0⟩)
              ⟨Kind.fixedWindow, 10, 60000, none, none, none, none⟩ 6 false 60000 0).value /
            10⌉ - 60000)) :=
  c3_fixed_window_evaluator ⟨Kind.fixedWindow, 10, 60000, none, none, none, none⟩
    ⟨5, 0⟩ 6 60000 0 false rfl (by norm_num) (by norm_num) (by norm_num)

/-- C10: with an absent existing state the synthesized state's pre-subtraction
replenished value equals `max = capacity ?? rate` for both kinds and for every
window phase / configured start `≤ now`; hence the first request on a fresh
shard without `reserve` is admitted iff `count ≤ max`. -/
theorem c10_fresh_shard (config : RateLimitConfig) (count now ph : ℚ) (reserve : Bool)
    (hrate : 0 < config.rate) (hper : 0 < config.period)
    (hstart : config.kind = Kind.fixedWindow → config.start.getD ph ≤ now) :
    (_checkRateLimitInternal none config count reserve now ph).value =
      config.capacity.getD config.rate - count ∧
    (reserve = false →
      ((_checkRateLimitInternal none config count reserve now ph).status.ok = true ↔
        count ≤ config.capacity.getD config.rate)) := by
  have hrep := replenished_fresh config now ph hrate.le hper hstart
  constructor
  · rw [eval_value, hrep]
  · intro hrsv
    subst hrsv
    have hff := eval_ok_false_iff none config count false now ph
    rw [hrep] at hff
    constructor
    · intro hok
      by_contra hc
      push_neg at hc
      have hfalse : (_checkRateLimitInternal none config count false now ph).status.ok = false :=
        hff.mpr ⟨by linarith, Or.inl rfl⟩
      rw [hok] at hfalse
      exact Bool.noConfusion hfalse
    · intro hcle
      cases hok : (_checkRateLimitInternal none config count false now ph).status.ok with
      | false =>
        have := (hff.mp hok).1
        linarith
      | true => rfl

/-- C10 witness: a fresh fixed-window shard with a random phase below `now`. -/
theorem c10_witness :
    (_checkRateLimitInternal none
        ⟨Kind.fixedWindow, 10, 60000, none, none, none, none⟩ 4 false 70000 300).value =
      10 - 4 ∧
    (false = false →
      ((_checkRateLimitInternal none
          ⟨Kind.fixedWindow, 10, 60000, none, none, none, none⟩ 4 false 70000 300).status.ok = true ↔
        (4 : ℚ) ≤ 10)) :=
  c10_fresh_shard ⟨Kind.fixedWindow, 10, 60000, none, none, none, none⟩ 4 70000 300 false
    (by norm_num) (by norm_num) (fun _ => by norm_num)

/-- C4 counterexample: with `maxReserved` set to `0` and `reserve = true`, the
evaluator admits a request that drives `value` to `-1`, although the claimed
rule (`-value ≤ maxReserved` required when `maxReserved` is set) demands
rejection: the claimed admission equivalence is false at this input. -/
theorem c4_counterexample :
    ¬ ((_checkRateLimitInternal none ⟨Kind.tokenBucket, 1, 1, none, some 0, none, none⟩
          2 true 0 0).status.ok = true ↔
       (0 ≤ (_checkRateLimitInternal none ⟨Kind.tokenBucket, 1, 1, none, some 0, none, none⟩
          2 true 0 0).value ∨
        ((⟨Kind.tokenBucket, 1, 1, none, some 0, none, none⟩ : RateLimitConfig).maxReserved =
            none ∨
         -(_checkRateLimitInternal none ⟨Kind.tokenBucket, 1, 1, none, some 0, none, none⟩
            2 true 0 0).value ≤
           (⟨Kind.tokenBucket, 1, 1, none, some 0, none, none⟩ :
              RateLimitConfig).maxReserved.getD 0))) := by
  have hres : _checkRateLimitInternal none ⟨Kind.tokenBucket, 1, 1, none, some 0, none, none⟩
      2 true 0 0 = ⟨⟨true, some 1⟩, -1, 0⟩ := by
    simp only [_checkRateLimitInternal, qTruthy]
    norm_num
  rw [hres]
  norm_num
  simp

/-- C4 (amended): the evaluator admits iff `value ≥ 0`, or `reserve` is true
and `maxReserved` is unset **or set to the falsy value 0** or `-value ≤
maxReserved`; when `value ≥ 0` no `retryAfter` is returned, and a rejection
always carries a `retryAfter`. -/
theorem c4_admission_rule (e : Option ShardState) (config : RateLimitConfig)
    (count : ℚ) (reserve : Bool) (now ph : ℚ) :
    ((_checkRateLimitInternal e config count reserve now ph).status.ok = true ↔
      (0 ≤ (_checkRateLimitInternal e config count reserve now ph).value ∨
        (reserve = true ∧
          (config.maxReserved = none ∨ config.maxReserved = some 0 ∨
            -(_checkRateLimitInternal e config count reserve now ph).value ≤
              config.maxReserved.getD 0)))) ∧
    (0 ≤ (_checkRateLimitInternal e config count reserve now ph).value →
      (_checkRateLimitInternal e config count reserve now ph).status.retryAfter = none) ∧
    ((_checkRateLimitInternal e config count reserve now ph).status.ok = false →
      ∃ t, (_checkRateLimitInternal e config count reserve now ph).status.retryAfter = some t) := by
  have hff := eval_ok_false_iff e config count reserve now ph
  have hval := eval_value e config count reserve now ph
  refine ⟨?_, ?_, ?_⟩
  · have hbool : ((_checkRateLimitInternal e config count reserve now ph).status.ok = true) ↔
        ¬((_checkRateLimitInternal e config count reserve now ph).status.ok = false) := by
      cases (_checkRateLimitInternal e config count reserve now ph).status.ok <;> simp
    rw [hbool, hff, hval]
    rcases lt_or_le (replenished e config now ph - count) 0 with hv | hv
    · constructor
      · intro hnot
        right
        have h2 : ¬(reserve = false ∨ (qTruthy config.maxReserved = true ∧
            config.maxReserved.getD 0 < -(replenished e config now ph - count))) :=
          fun hor => hnot ⟨hv, hor⟩
        push_neg at h2
        obtain ⟨hr, h3⟩ := h2
        have hrt : reserve = true := by
          cases reserve
          · exact absurd rfl hr
          · rfl
        refine ⟨hrt, ?_⟩
        by_cases ht : qTruthy config.maxReserved = true
        · right; right; exact h3 ht
        · have hq : qTruthy config.maxReserved = false := by
            cases hqt : qTruthy config.maxReserved
            · rfl
            · exact absurd hqt ht
          rcases (qTruthy_false_iff _).mp hq with h | h
          · left; exact h
          · right; left; exact h
      · rintro (h0 | ⟨hr, hcase⟩) ⟨h1, hor⟩
        · linarith
        · rcases hor with hrf | ⟨ht, hlt⟩
          · rw [hr] at hrf; exact Bool.noConfusion hrf
          · rcases hcase with hn | h0' | hle
            · rw [hn] at ht; simp [qTruthy] at ht
            · rw [h0'] at ht; simp [qTruthy] at ht
            · linarith
    · constructor
      · intro _; left; linarith
      · rintro _ ⟨h1, _⟩; linarith
  · intro hv
    rw [hval] at hv
    rw [eval_retryAfter, if_neg (by linarith)]
  · intro hok
    have hv : replenished e config now ph - count < 0 := (hff.mp hok).1
    exact ⟨_, by rw [eval_retryAfter, if_pos hv]⟩

/-- C5 counterexample: `maxReserved` set to the falsy value `0` with
`reserve = true` and `count = 5 > max + maxReserved/shardFactor = 1` — the
claim demands a thrown configuration error, but `validateRequest`
accepts the request (the truthiness guard skips the check entirely). -/
theorem c5_counterexample :
    ¬ ((validateRequest ⟨Kind.tokenBucket, 1, 1, none, some 0, none, none⟩ (some 5) true ≠
          .ok ()) ↔
       ((true = true ∧
          (⟨Kind.tokenBucket, 1, 1, none, some 0, none, none⟩ :
            RateLimitConfig).maxReserved ≠ none ∧
          (1 : ℚ) / 1 + 0 / 1 < 5) ∨
        (true = false ∧ (1 : ℚ) / 1 < 5))) := by
  have h : validateRequest ⟨Kind.tokenBucket, 1, 1, none, some 0, none, none⟩ (some 5) true =
      .ok () := by
    simp [validateRequest, qTruthy, MIN_CHOOSE_TWO]
  rw [iff_iff_implies_and_implies]
  intro hand
  exact hand.2 (Or.inl ⟨rfl, by simp, by norm_num⟩) h

/-- C5 (amended): with a positive shard count, `validateRequest` throws exactly
when `reserve` is true, `maxReserved` is set **to a nonzero value**, and
`count > max + maxReserved/shardFactor`, or `reserve` is false and
`count > max` (with `shardFactor = shards ≥ 3 ? shards/2 : 1` and
`max = (capacity ?? rate)/shardFactor`); and a request that fails validation
propagates the error out of the sharded check without touching shard state. -/
theorem c5_validator (config : RateLimitConfig) (count : Option ℚ) (reserve : Bool)
    (hsh : 0 < config.shards.getD 1) :
    ((validateRequest config count reserve ≠ .ok ()) ↔
      ((reserve = true ∧ ∃ m, config.maxReserved = some m ∧ m ≠ 0 ∧
          config.capacity.getD config.rate /
            (if config.shards.getD 1 < MIN_CHOOSE_TWO then 1 else config.shards.getD 1 / 2) +
          m / (if config.shards.getD 1 < MIN_CHOOSE_TWO then 1 else config.shards.getD 1 / 2) <
          count.getD 1) ∨
       (reserve = false ∧
          config.capacity.getD config.rate /
            (if config.shards.getD 1 < MIN_CHOOSE_TWO then 1 else config.shards.getD 1 / 2) <
          count.getD 1))) ∧
    (∀ e, validateRequest config count reserve = .error e →
      ∀ (db : ℚ → Option ShardState) (now shardA randB pA pB pA2 pB2 : ℚ),
        checkRateLimitSharded db config count reserve now shardA randB pA pB pA2 pB2 =
          .error e) := by
  constructor
  · have hns : ¬ config.shards.getD 1 ≤ 0 := not_le.mpr hsh
    simp only [validateRequest, if_neg hns]
    cases reserve
    · by_cases hc : config.capacity.getD config.rate /
          (if config.shards.getD 1 < MIN_CHOOSE_TWO then 1 else config.shards.getD 1 / 2) <
          count.getD 1
      · simp [hc]
      · simp [hc]
    · cases hmr : config.maxReserved with
      | none => simp [qTruthy]
      | some m =>
        by_cases hm : m = 0
        · subst hm
          simp [qTruthy]
        · by_cases hc : config.capacity.getD config.rate /
              (if config.shards.getD 1 < MIN_CHOOSE_TWO then 1 else config.shards.getD 1 / 2) +
              m / (if config.shards.getD 1 < MIN_CHOOSE_TWO then 1
                else config.shards.getD 1 / 2) <
              count.getD 1
          · simp [qTruthy, hm, hc]
          · simp [qTruthy, hm, hc]
  · intro e he db now shardA randB pA pB pA2 pB2
    simp [checkRateLimitSharded, he]

/-- C5 witness: at a concrete unsatisfiable request (`count = 2` against a
token bucket of capacity `1`, no reserve) validation fails, and with it the
sharded check. -/
theorem c5_witness :
    ((validateRequest ⟨Kind.tokenBucket, 1, 1000, none, none, none, none⟩ (some 2) false ≠
        .ok ()) ↔
      ((false = true ∧ ∃ m, (⟨Kind.tokenBucket, 1, 1000, none, none, none, none⟩ :
            RateLimitConfig).maxReserved = some m ∧ m ≠ 0 ∧
          (1 : ℚ) / (if (1 : ℚ) < MIN_CHOOSE_TWO then 1 else 1 / 2) +
          m / (if (1 : ℚ) < MIN_CHOOSE_TWO then 1 else 1 / 2) < 2) ∨
       (false = false ∧
          (1 : ℚ) / (if (1 : ℚ) < MIN_CHOOSE_TWO then 1 else 1 / 2) < 2))) ∧
    (∀ e, validateRequest ⟨Kind.tokenBucket, 1, 1000, none, none, none, none⟩
        (some 2) false = .error e →
      ∀ (db : ℚ → Option ShardState) (now shardA randB pA pB pA2 pB2 : ℚ),
        checkRateLimitSharded db ⟨Kind.tokenBucket, 1, 1000, none, none, none, none⟩
          (some 2) false now shardA randB pA pB pA2 pB2 = .error e) :=
  c5_validator ⟨Kind.tokenBucket, 1, 1000, none, none, none, none⟩ (some 2) false (by norm_num)

/-- C1 counterexample: presented with a pair where exactly one rebalanced
re-evaluation admits, the combine step returns the normal decision
`{ok := false, retryAfter := 7}` with no updates — it does not fail with an
invariant-violation error as the claim requires. -/
theorem c1_counterexample :
    combineShared ⟨⟨true, none⟩, 3, 5, 0, some ⟨4, 0⟩⟩ ⟨⟨false, some 7⟩, -2, 5, 1, some ⟨1, 0⟩⟩
      ⟨⟨true, none⟩, 3, 5⟩ ⟨⟨false, some 7⟩, -2, 5⟩ =
    .ok (⟨false, some 7⟩, []) := by
  simp only [combineShared, qTruthy]
  norm_num

/-- C1 (amended): when exactly one of the two rebalanced re-evaluations admits
(and the failing one carries a truthy `retryAfter`, as the evaluator always
produces on failure), the combine step returns the plain decision
`{ok:false, retryAfter = max of the two retryAfters}` with an empty update
set — it never throws. -/
theorem c1_combiner_mixed (one two : ShardCheck) (oneShared twoShared : EvalResult)
    (hmix : oneShared.status.ok ≠ twoShared.status.ok)
    (hfail : qTruthy (if oneShared.status.ok then twoShared.status.retryAfter
      else oneShared.status.retryAfter) = true) :
    combineShared one two oneShared twoShared =
      .ok (⟨false, some (max (oneShared.status.retryAfter.getD 0)
        (twoShared.status.retryAfter.getD 0))⟩, []) := by
  cases h1 : oneShared.status.ok <;> cases h2 : twoShared.status.ok
  · simp [h1, h2] at hmix
  · simp only [h1, Bool.false_eq_true, if_false] at hfail
    simp [combineShared, h1, h2, hfail]
  · simp only [h1, if_true] at hfail
    simp [combineShared, h1, h2, hfail]
  · simp [h1, h2] at hmix

/-- C1 witness: the mixed-pair behaviour at a concrete input (failing side
first). -/
theorem c1_witness :
    combineShared ⟨⟨false, some 5⟩, -2, 9, 0, some ⟨4, 0⟩⟩ ⟨⟨true, none⟩, 1, 9, 2, some ⟨1, 0⟩⟩
      ⟨⟨false, some 5⟩, -2, 9⟩ ⟨⟨true, none⟩, 1, 9⟩ =
    .ok (⟨false, some (max ((some (5 : ℚ)).getD 0) ((none : Option ℚ).getD 0))⟩, []) :=
  c1_combiner_mixed ⟨⟨false, some 5⟩, -2, 9, 0, some ⟨4, 0⟩⟩ ⟨⟨true, none⟩, 1, 9, 2, some ⟨1, 0⟩⟩
    ⟨⟨false, some 5⟩, -2, 9⟩ ⟨⟨true, none⟩, 1, 9⟩ (by simp)
    (by simp [qTruthy])

theorem sharded_validate_ok (db : ℚ → Option ShardState) (config : RateLimitConfig)
    (count : Option ℚ) (reserve : Bool) (now shardA randB pA pB pA2 pB2 : ℚ)
    (hv : validateRequest config count reserve = .ok ()) :
    checkRateLimitSharded db config count reserve now shardA randB pA pB pA2 pB2 =
      shardedBody db config count reserve now shardA randB pA pB pA2 pB2 := by
  simp [checkRateLimitSharded, hv]

theorem shardedBody_single (db : ℚ → Option ShardState) (config : RateLimitConfig)
    (count : Option ℚ) (reserve : Bool) (now shardA randB pA pB pA2 pB2 : ℚ)
    (h : (checkShard db (shardConfig config config.shards) count reserve now pA shardA).existing
        = none ∨ shardsOrOne config.shards < MIN_CHOOSE_TWO) :
    shardedBody db config count reserve now shardA randB pA pB pA2 pB2 =
      .ok (returnSingle
        (checkShard db (shardConfig config config.shards) count reserve now pA shardA)) := by
  simp only [shardedBody]
  rw [if_pos h]

theorem shardedBody_cases (db : ℚ → Option ShardState) (config : RateLimitConfig)
    (count : Option ℚ) (reserve : Bool) (now shardA randB pA pB pA2 pB2 : ℚ)
    (one two : ShardCheck)
    (hone : checkShard db (shardConfig config config.shards) count reserve now pA shardA = one)
    (htwo : checkShard db (shardConfig config config.shards) count reserve now pB
      (jsMod (one.shard + 1 + randB) (shardsOrOne config.shards)) = two)
    (h : ¬(one.existing = none ∨ shardsOrOne config.shards < MIN_CHOOSE_TWO)) :
    shardedBody db config count reserve now shardA randB pA pB pA2 pB2 =
      (if one.status.ok = true ∧ two.status.ok = false then .ok (returnSingle one)
      else if one.status.ok = false ∧ two.status.ok = true then .ok (returnSingle two)
      else if one.status.ok = true ∧ two.status.ok = true then
        .ok (returnSingle (if two.value < one.value then one else two))
      else if one.status.ok = true ∨ two.status.ok = true then .error "Unreachable"
      else
        combineShared one two
          (_checkRateLimitInternal one.existing (shardConfig config config.shards)
            (one.value + count.getD 1 - (one.value + two.value + count.getD 1) / 2)
            reserve now pA2)
          (_checkRateLimitInternal two.existing (shardConfig config config.shards)
            (two.value + count.getD 1 - (one.value + two.value + count.getD 1) / 2)
            reserve now pB2)) := by
  simp only [shardedBody]
  rw [hone, if_neg h, htwo]

theorem jsMod_natCast (m n : ℕ) :
    jsMod (m : ℚ) (n : ℚ) = ((m % n : ℕ) : ℚ) := by
  unfold jsMod
  have hfl : ⌊(m : ℚ) / (n : ℚ)⌋ = (m : ℤ) / (n : ℤ) := by
    have h := Rat.floor_intCast_div_natCast (m : ℤ) n
    simpa using h
  rw [hfl]
  have h2 : ((m % n : ℕ) : ℤ) = (m : ℤ) - (n : ℤ) * ((m : ℤ) / (n : ℤ)) := by
    rw [Int.natCast_mod]
    exact Int.emod_def _ _
  calc (m : ℚ) - (n : ℚ) * (((m : ℤ) / (n : ℤ) : ℤ) : ℚ)
      = (((m : ℤ) - (n : ℤ) * ((m : ℤ) / (n : ℤ)) : ℤ) : ℚ) := by push_cast; ring
    _ = (((m % n : ℕ) : ℤ) : ℚ) := by rw [h2]
    _ = ((m % n : ℕ) : ℚ) := by push_cast; rfl

theorem second_index_ne (a r n : ℕ) (h3 : 3 ≤ n) (ha : a < n) (hr : r < n - 1) :
    (a + 1 + r) % n < n ∧ (a + 1 + r) % n ≠ a := by
  refine ⟨Nat.mod_lt _ (by omega), ?_⟩
  rcases Nat.lt_or_ge (a + 1 + r) n with h | h
  · rw [Nat.mod_eq_of_lt h]; omega
  · have h2 : a + 1 + r - n < n := by omega
    rw [Nat.mod_eq_sub_mod h, Nat.mod_eq_of_lt h2]; omega

/-- C6: after validation, if the first probed shard is fresh or `shards < 3`
its result alone is returned (independently of every other row and of the
second-shard draws); otherwise the second probed index is an integer in
`[0, shards)` distinct from the first; when both shards admit the decision and
the single persisted update come from the shard with the larger
post-consumption value, and when exactly one admits that shard's result and
update are used. -/
theorem c6_shard_selector (db db' : ℚ → Option ShardState) (config : RateLimitConfig)
    (count : Option ℚ) (reserve : Bool)
    (now shardA randB pA pB pA2 pB2 randB' pB' pA2' pB2' : ℚ)
    (hv : validateRequest config count reserve = .ok ()) :
    (((checkShard db (shardConfig config config.shards) count reserve now pA shardA).existing
        = none ∨ shardsOrOne config.shards < MIN_CHOOSE_TWO) →
      db' shardA = db shardA →
      checkRateLimitSharded db' config count reserve now shardA randB' pA pB' pA2' pB2' =
        .ok (returnSingle
          (checkShard db (shardConfig config config.shards) count reserve now pA shardA))) ∧
    (∀ n a r : ℕ, config.shards = some (n : ℚ) → 3 ≤ n → shardA = (a : ℚ) → randB = (r : ℚ) →
      a < n → r < n - 1 →
      jsMod (shardA + 1 + randB) (shardsOrOne config.shards) = (((a + 1 + r) % n : ℕ) : ℚ) ∧
      (a + 1 + r) % n < n ∧ (a + 1 + r) % n ≠ a) ∧
    (∀ one two : ShardCheck,
      checkShard db (shardConfig config config.shards) count reserve now pA shardA = one →
      checkShard db (shardConfig config config.shards) count reserve now pB
        (jsMod (shardA + 1 + randB) (shardsOrOne config.shards)) = two →
      one.existing ≠ none → ¬ shardsOrOne config.shards < MIN_CHOOSE_TWO →
      ((one.status.ok = true → two.status.ok = true → two.value < one.value →
        checkRateLimitSharded db config count reserve now shardA randB pA pB pA2 pB2 =
          .ok (one.status, [⟨one.value, one.ts, one.existing, one.shard⟩])) ∧
       (one.status.ok = true → two.status.ok = true → one.value < two.value →
        checkRateLimitSharded db config count reserve now shardA randB pA pB pA2 pB2 =
          .ok (two.status, [⟨two.value, two.ts, two.existing, two.shard⟩])) ∧
       (one.status.ok = true → two.status.ok = false →
        checkRateLimitSharded db config count reserve now shardA randB pA pB pA2 pB2 =
          .ok (one.status, [⟨one.value, one.ts, one.existing, one.shard⟩])) ∧
       (one.status.ok = false → two.status.ok = true →
        checkRateLimitSharded db config count reserve now shardA randB pA pB pA2 pB2 =
          .ok (two.status, [⟨two.value, two.ts, two.existing, two.shard⟩])))) := by
  refine ⟨?_, ?_, ?_⟩
  · intro h hdb
    have hone' : checkShard db' (shardConfig config config.shards) count reserve now pA shardA =
        checkShard db (shardConfig config config.shards) count reserve now pA shardA := by
      simp [checkShard, hdb]
    rw [sharded_validate_ok db' config count reserve now shardA randB' pA pB' pA2' pB2' hv,
      shardedBody_single db' config count reserve now shardA randB' pA pB' pA2' pB2'
        (by rw [hone']; exact h), hone']
  · intro n a r hsn h3 ha hr han hrn
    have hnp : (0 : ℚ) < config.shards.getD 1 := by
      rw [hsn]
      simp only [Option.getD_some]
      exact_mod_cast Nat.lt_of_lt_of_le (by norm_num) h3
    have hs : shardsOrOne config.shards = (n : ℚ) := by
      rw [shardsOrOne_of_pos _ hnp, hsn]; rfl
    subst ha; subst hr
    rw [hs]
    have hcast : ((a : ℚ) + 1 + (r : ℚ)) = ((a + 1 + r : ℕ) : ℚ) := by push_cast; ring
    rw [hcast, jsMod_natCast]
    exact ⟨rfl, second_index_ne a r n h3 han hrn⟩
  · intro one two hone htwo hne1 hne2
    have hsh : one.shard = shardA := by rw [← hone]; rfl
    have htwo2 : checkShard db (shardConfig config config.shards) count reserve now pB
        (jsMod (one.shard + 1 + randB) (shardsOrOne config.shards)) = two := by
      rw [hsh]; exact htwo
    have hne : ¬((one.existing = none) ∨ shardsOrOne config.shards < MIN_CHOOSE_TWO) :=
      not_or.mpr ⟨hne1, hne2⟩
    refine ⟨?_, ?_, ?_, ?_⟩
    · intro h1 h2 hlt
      rw [sharded_validate_ok db config count reserve now shardA randB pA pB pA2 pB2 hv,
        shardedBody_cases db config count reserve now shardA randB pA pB pA2 pB2 one two hone
          htwo2 hne]
      rw [if_neg (by simp [h2]), if_neg (by simp [h1]), if_pos ⟨h1, h2⟩, if_pos hlt]
      simp [returnSingle, h1]
    · intro h1 h2 hlt
      rw [sharded_validate_ok db config count reserve now shardA randB pA pB pA2 pB2 hv,
        shardedBody_cases db config count reserve now shardA randB pA pB pA2 pB2 one two hone
          htwo2 hne]
      rw [if_neg (by simp [h2]), if_neg (by simp [h1]), if_pos ⟨h1, h2⟩,
        if_neg (not_lt.mpr hlt.le)]
      simp [returnSingle, h2]
    · intro h1 h2
      rw [sharded_validate_ok db config count reserve now shardA randB pA pB pA2 pB2 hv,
        shardedBody_cases db config count reserve now shardA randB pA pB pA2 pB2 one two hone
          htwo2 hne]
      rw [if_pos ⟨h1, h2⟩]
      simp [returnSingle, h1]
    · intro h1 h2
      rw [sharded_validate_ok db config count reserve now shardA randB pA pB pA2 pB2 hv,
        shardedBody_cases db config count reserve now shardA randB pA pB pA2 pB2 one two hone
          htwo2 hne]
      rw [if_neg (by simp [h1]), if_pos ⟨h1, h2⟩]
      simp [returnSingle, h2]

/-- C6 witness: three shards, the first probed full and the second empty —
the first shard's result and update are returned alone. -/
theorem c6_witness :
    checkRateLimitSharded
      (fun i => if i = 0 then some ⟨1, 0⟩ else if i = 1 then some ⟨0, 0⟩ else none)
      ⟨Kind.tokenBucket, 3, 1000, none, none, some 3, none⟩ none false 0 0 0 0 0 0 0 =
    .ok (⟨true, none⟩, [⟨0, 0, some ⟨1, 0⟩, 0⟩]) := by
  have hv : validateRequest ⟨Kind.tokenBucket, 3, 1000, none, none, some 3, none⟩ none false =
      .ok () := by
    simp only [validateRequest, qTruthy, MIN_CHOOSE_TWO]
    norm_num
  have h1 : checkShard
      (fun i => if i = 0 then some ⟨1, 0⟩ else if i = 1 then some ⟨0, 0⟩ else none)
      (shardConfig ⟨Kind.tokenBucket, 3, 1000, none, none, some 3, none⟩
        (⟨Kind.tokenBucket, 3, 1000, none, none, some 3, none⟩ : RateLimitConfig).shards)
      none false 0 0 0 = ⟨⟨true, none⟩, 0, 0, 0, some ⟨1, 0⟩⟩ := by
    simp only [checkShard, shardConfig, _checkRateLimitInternal, qTruthy]
    norm_num
  have h2 : checkShard
      (fun i => if i = 0 then some ⟨1, 0⟩ else if i = 1 then some ⟨0, 0⟩ else none)
      (shardConfig ⟨Kind.tokenBucket, 3, 1000, none, none, some 3, none⟩
        (⟨Kind.tokenBucket, 3, 1000, none, none, some 3, none⟩ : RateLimitConfig).shards)
      none false 0 0
      (jsMod ((0 : ℚ) + 1 + 0)
        (shardsOrOne (⟨Kind.tokenBucket, 3, 1000, none, none, some 3, none⟩ :
          RateLimitConfig).shards)) =
      ⟨⟨false, some 1000⟩, -1, 0, 1, some ⟨0, 0⟩⟩ := by
    simp only [checkShard, shardConfig, shardsOrOne, jsMod, _checkRateLimitInternal, qTruthy]
    norm_num
  have h := (c6_shard_selector
      (fun i => if i = 0 then some ⟨1, 0⟩ else if i = 1 then some ⟨0, 0⟩ else none)
      (fun i => if i = 0 then some ⟨1, 0⟩ else if i = 1 then some ⟨0, 0⟩ else none)
      ⟨Kind.tokenBucket, 3, 1000, none, none, some 3, none⟩ none false
      0 0 0 0 0 0 0 0 0 0 0 hv).2.2
      ⟨⟨true, none⟩, 0, 0, 0, some ⟨1, 0⟩⟩ ⟨⟨false, some 1000⟩, -1, 0, 1, some ⟨0, 0⟩⟩
      h1 h2 (by simp) (by norm_num [shardsOrOne, qTruthy, MIN_CHOOSE_TWO])
  exact h.2.2.1 rfl rfl

theorem combineShared_both_ok_pure (one two : ShardCheck) (oneShared twoShared : EvalResult)
    (h1 : oneShared.status.ok = true) (h2 : twoShared.status.ok = true)
    (hq : qTruthy oneShared.status.retryAfter = false ∧
      qTruthy twoShared.status.retryAfter = false) :
    combineShared one two oneShared twoShared =
      .ok (⟨true, none⟩, [⟨oneShared.value, oneShared.ts, one.existing, one.shard⟩,
        ⟨twoShared.value, twoShared.ts, two.existing, two.shard⟩]) := by
  unfold combineShared
  rw [if_neg (by simp [h1])]
  simp only [h1, h2, Bool.and_self, if_true]
  rw [if_pos hq]

theorem combineShared_both_ok_reserved (one two : ShardCheck) (oneShared twoShared : EvalResult)
    (h1 : oneShared.status.ok = true) (h2 : twoShared.status.ok = true)
    (hq : ¬(qTruthy oneShared.status.retryAfter = false ∧
      qTruthy twoShared.status.retryAfter = false)) :
    combineShared one two oneShared twoShared =
      .ok (⟨true, some (max (oneShared.status.retryAfter.getD 0)
          (twoShared.status.retryAfter.getD 0))⟩,
        [⟨oneShared.value, oneShared.ts, one.existing, one.shard⟩,
         ⟨twoShared.value, twoShared.ts, two.existing, two.shard⟩]) := by
  unfold combineShared
  rw [if_neg (by simp [h1])]
  simp only [h1, h2, Bool.and_self, if_true]
  rw [if_neg hq]

/-- C7: whenever the combiner runs (both probed shards failed individually)
and both rebalanced re-evaluations admit, both re-evaluations produce the same
value `balance/2` with `balance = A.value + B.value + count`, both shards'
`(value, ts)` updates are persisted with an ok status, and the persisted
values sum to the combined pre-consumption total minus `count`. -/
theorem c7_combiner_rebalance (db : ℚ → Option ShardState) (config : RateLimitConfig)
    (count : Option ℚ) (reserve : Bool) (now shardA randB pA pB pA2 pB2 : ℚ)
    (hv : validateRequest config count reserve = .ok ())
    (hrate : 0 < config.rate) (hper : 0 < config.period)
    (hstart : config.kind = Kind.fixedWindow →
      config.start.getD pB ≤ now ∧ config.start.getD pB2 ≤ now) :
    ∀ one two : ShardCheck,
      checkShard db (shardConfig config config.shards) count reserve now pA shardA = one →
      checkShard db (shardConfig config config.shards) count reserve now pB
        (jsMod (shardA + 1 + randB) (shardsOrOne config.shards)) = two →
      one.existing ≠ none → ¬ shardsOrOne config.shards < MIN_CHOOSE_TWO →
      one.status.ok = false → two.status.ok = false →
      ∀ oneShared twoShared : EvalResult,
        _checkRateLimitInternal one.existing (shardConfig config config.shards)
          (one.value + count.getD 1 - (one.value + two.value + count.getD 1) / 2)
          reserve now pA2 = oneShared →
        _checkRateLimitInternal two.existing (shardConfig config config.shards)
          (two.value + count.getD 1 - (one.value + two.value + count.getD 1) / 2)
          reserve now pB2 = twoShared →
        oneShared.value = (one.value + two.value + count.getD 1) / 2 ∧
        twoShared.value = (one.value + two.value + count.getD 1) / 2 ∧
        oneShared.value + twoShared.value =
          replenished one.existing (shardConfig config config.shards) now pA +
            replenished two.existing (shardConfig config config.shards) now pB -
            count.getD 1 ∧
        (oneShared.status.ok = true → twoShared.status.ok = true →
          ((qTruthy oneShared.status.retryAfter = false ∧
              qTruthy twoShared.status.retryAfter = false) →
            checkRateLimitSharded db config count reserve now shardA randB pA pB pA2 pB2 =
              .ok (⟨true, none⟩,
                [⟨oneShared.value, oneShared.ts, one.existing, one.shard⟩,
                 ⟨twoShared.value, twoShared.ts, two.existing, two.shard⟩])) ∧
          (¬(qTruthy oneShared.status.retryAfter = false ∧
              qTruthy twoShared.status.retryAfter = false) →
            checkRateLimitSharded db config count reserve now shardA randB pA pB pA2 pB2 =
              .ok (⟨true, some (max (oneShared.status.retryAfter.getD 0)
                  (twoShared.status.retryAfter.getD 0))⟩,
                [⟨oneShared.value, oneShared.ts, one.existing, one.shard⟩,
                 ⟨twoShared.value, twoShared.ts, two.existing, two.shard⟩]))) := by
  intro one two hone htwo hne1 hne2 h1 h2 oneShared twoShared hos hts2
  have hshpos := validate_ok_shards_pos config count reserve hv
  have hcrate : 0 < (shardConfig config config.shards).rate :=
    shardConfig_rate_pos config hshpos hrate
  have hcper : 0 < (shardConfig config config.shards).period := by
    rw [shardConfig_period]; exact hper
  have hoe : one.existing = db shardA := by rw [← hone]; rfl
  have hov : one.value =
      replenished (db shardA) (shardConfig config config.shards) now pA - count.getD 1 := by
    rw [← hone]
    exact eval_value (db shardA) (shardConfig config config.shards) (count.getD 1) reserve now pA
  have hte : two.existing = db (jsMod (shardA + 1 + randB) (shardsOrOne config.shards)) := by
    rw [← htwo]; rfl
  have htv : two.value =
      replenished (db (jsMod (shardA + 1 + randB) (shardsOrOne config.shards)))
        (shardConfig config config.shards) now pB - count.getD 1 := by
    rw [← htwo]
    exact eval_value _ (shardConfig config config.shards) (count.getD 1) reserve now pB
  have h1v : replenished one.existing (shardConfig config config.shards) now pA =
      one.value + count.getD 1 := by
    rw [hoe, hov]; ring
  have h2v : replenished two.existing (shardConfig config config.shards) now pB =
      two.value + count.getD 1 := by
    rw [hte, htv]; ring
  obtain ⟨s1, hs1⟩ : ∃ s, one.existing = some s := by
    cases hx : one.existing with
    | none => exact absurd hx hne1
    | some s => exact ⟨s, rfl⟩
  have hph1 : replenished one.existing (shardConfig config config.shards) now pA2 =
      replenished one.existing (shardConfig config config.shards) now pA := by
    rw [hs1]; exact replenished_phase_irrel s1 _ now pA2 pA
  have hph2 : replenished two.existing (shardConfig config config.shards) now pB2 =
      replenished two.existing (shardConfig config config.shards) now pB := by
    cases hx : two.existing with
    | some s => exact replenished_phase_irrel s _ now pB2 pB
    | none =>
      have hks := shardConfig_kind config config.shards
      have hss := shardConfig_start config config.shards
      rw [replenished_fresh _ now pB2 hcrate.le hcper
          (fun hkfw => by
            rw [hss]
            exact (hstart (by rw [← hks]; exact hkfw)).2),
        replenished_fresh _ now pB hcrate.le hcper
          (fun hkfw => by
            rw [hss]
            exact (hstart (by rw [← hks]; exact hkfw)).1)]
  have hosv : oneShared.value = (one.value + two.value + count.getD 1) / 2 := by
    rw [← hos, eval_value, hph1, h1v]; ring
  have htsv : twoShared.value = (one.value + two.value + count.getD 1) / 2 := by
    rw [← hts2, eval_value, hph2, h2v]; ring
  refine ⟨hosv, htsv, ?_, ?_⟩
  · rw [hosv, htsv, h1v, h2v]; ring
  · intro hok1 hok2
    have hsh : one.shard = shardA := by rw [← hone]; rfl
    have htwo2 : checkShard db (shardConfig config config.shards) count reserve now pB
        (jsMod (one.shard + 1 + randB) (shardsOrOne config.shards)) = two := by
      rw [hsh]; exact htwo
    have hne : ¬((one.existing = none) ∨ shardsOrOne config.shards < MIN_CHOOSE_TWO) :=
      not_or.mpr ⟨hne1, hne2⟩
    constructor
    · intro hq
      rw [sharded_validate_ok db config count reserve now shardA randB pA pB pA2 pB2 hv,
        shardedBody_cases db config count reserve now shardA randB pA pB pA2 pB2 one two hone
          htwo2 hne]
      rw [if_neg (by simp [h1]), if_neg (by simp [h2]), if_neg (by simp [h1]),
        if_neg (by simp [h1, h2]), hos, hts2]
      exact combineShared_both_ok_pure one two oneShared twoShared hok1 hok2 hq
    · intro hq
      rw [sharded_validate_ok db config count reserve now shardA randB pA pB pA2 pB2 hv,
        shardedBody_cases db config count reserve now shardA randB pA pB pA2 pB2 one two hone
          htwo2 hne]
      rw [if_neg (by simp [h1]), if_neg (by simp [h2]), if_neg (by simp [h1]),
        if_neg (by simp [h1, h2]), hos, hts2]
      exact combineShared_both_ok_reserved one two oneShared twoShared hok1 hok2 hq

/-- C7 witness: three shards of one token each, a request for two tokens —
both probed shards fail alone, the combiner splits the deficit evenly and
persists both updates. -/
theorem c7_witness :
    checkRateLimitSharded
      (fun i => if i = 0 then some ⟨1, 0⟩ else if i = 1 then some ⟨1, 0⟩ else none)
      ⟨Kind.tokenBucket, 3, 3, none, none, some 3, none⟩ (some 2) false 0 0 0 0 0 0 0 =
    .ok (⟨true, none⟩, [⟨0, 0, some ⟨1, 0⟩, 0⟩, ⟨0, 0, some ⟨1, 0⟩, 1⟩]) := by
  have hv : validateRequest ⟨Kind.tokenBucket, 3, 3, none, none, some 3, none⟩ (some 2) false =
      .ok () := by
    simp only [validateRequest, qTruthy, MIN_CHOOSE_TWO]
    norm_num
  have hone : checkShard
      (fun i => if i = 0 then some ⟨1, 0⟩ else if i = 1 then some ⟨1, 0⟩ else none)
      (shardConfig ⟨Kind.tokenBucket, 3, 3, none, none, some 3, none⟩
        (⟨Kind.tokenBucket, 3, 3, none, none, some 3, none⟩ : RateLimitConfig).shards)
      (some 2) false 0 0 0 = ⟨⟨false, some 3⟩, -1, 0, 0, some ⟨1, 0⟩⟩ := by
    simp only [checkShard, shardConfig, _checkRateLimitInternal, qTruthy]
    norm_num
  have htwo : checkShard
      (fun i => if i = 0 then some ⟨1, 0⟩ else if i = 1 then some ⟨1, 0⟩ else none)
      (shardConfig ⟨Kind.tokenBucket, 3, 3, none, none, some 3, none⟩
        (⟨Kind.tokenBucket, 3, 3, none, none, some 3, none⟩ : RateLimitConfig).shards)
      (some 2) false 0 0
      (jsMod ((0 : ℚ) + 1 + 0)
        (shardsOrOne (⟨Kind.tokenBucket, 3, 3, none, none, some 3, none⟩ :
          RateLimitConfig).shards)) =
      ⟨⟨false, some 3⟩, -1, 0, 1, some ⟨1, 0⟩⟩ := by
    simp only [checkShard, shardConfig, shardsOrOne, jsMod, _checkRateLimitInternal, qTruthy]
    norm_num
  have hos : _checkRateLimitInternal (some ⟨1, 0⟩)
      (shardConfig ⟨Kind.tokenBucket, 3, 3, none, none, some 3, none⟩
        (⟨Kind.tokenBucket, 3, 3, none, none, some 3, none⟩ : RateLimitConfig).shards)
      ((-1 : ℚ) + 2 - ((-1) + (-1) + 2) / 2) false 0 0 = ⟨⟨true, none⟩, 0, 0⟩ := by
    simp only [shardConfig, _checkRateLimitInternal, qTruthy]
    norm_num
  have h := (c7_combiner_rebalance
      (fun i => if i = 0 then some ⟨1, 0⟩ else if i = 1 then some ⟨1, 0⟩ else none)
      ⟨Kind.tokenBucket, 3, 3, none, none, some 3, none⟩ (some 2) false 0 0 0 0 0 0 0
      hv (by norm_num) (by norm_num) (fun hk => by exact absurd hk (by simp))
      ⟨⟨false, some 3⟩, -1, 0, 0, some ⟨1, 0⟩⟩ ⟨⟨false, some 3⟩, -1, 0, 1, some ⟨1, 0⟩⟩
      hone htwo (by simp) (by norm_num [shardsOrOne, qTruthy, MIN_CHOOSE_TWO]) rfl rfl
      ⟨⟨true, none⟩, 0, 0⟩ ⟨⟨true, none⟩, 0, 0⟩ hos hos).2.2.2 rfl rfl
  exact h.1 ⟨rfl, rfl⟩

theorem combineShared_not_ok (one two : ShardCheck) (oS tS : EvalResult)
    (st : Status) (up : List Update)
    (hres : combineShared one two oS tS = .ok (st, up)) (hok : st.ok = false)
    (h1 : oS.status.ok = false → ∃ t, oS.status.retryAfter = some t ∧ 0 < t)
    (h2 : tS.status.ok = false → ∃ t, tS.status.retryAfter = some t ∧ 0 < t) :
    (∃ t, st.retryAfter = some t ∧ 0 < t) ∧ up = [] := by
  unfold combineShared at hres
  by_cases hc : (oS.status.ok = false ∧ tS.status.ok = false)
  · rw [if_pos hc] at hres
    simp only [Except.ok.injEq, Prod.mk.injEq] at hres
    obtain ⟨hst, hup⟩ := hres
    obtain ⟨t1, ht1, hp1⟩ := h1 hc.1
    refine ⟨⟨max (oS.status.retryAfter.getD 0) (tS.status.retryAfter.getD 0), ?_, ?_⟩, hup.symm⟩
    · rw [← hst]
    · rw [ht1]
      exact lt_of_lt_of_le hp1 (by simpa using le_max_left _ _)
  · rw [if_neg hc] at hres
    by_cases hq : (qTruthy oS.status.retryAfter = false ∧ qTruthy tS.status.retryAfter = false)
    · rw [if_pos hq] at hres
      simp only [Except.ok.injEq, Prod.mk.injEq] at hres
      rw [← hres.1] at hok
      exact Bool.noConfusion hok
    · rw [if_neg hq] at hres
      simp only [Except.ok.injEq, Prod.mk.injEq] at hres
      obtain ⟨hst, hup⟩ := hres
      have hand : (oS.status.ok && tS.status.ok) = false := by rw [← hst] at hok; exact hok
      have hfail : oS.status.ok = false ∨ tS.status.ok = false := by
        cases ho : oS.status.ok
        · exact Or.inl rfl
        · cases ht : tS.status.ok
          · exact Or.inr rfl
          · rw [ho, ht] at hand; exact Bool.noConfusion hand
      have hupe : up = [] := by
        rw [← hup]
        simp [hand]
      refine ⟨⟨max (oS.status.retryAfter.getD 0) (tS.status.retryAfter.getD 0), ?_, ?_⟩, hupe⟩
      · rw [← hst]
      · rcases hfail with hf | hf
        · obtain ⟨t1, ht1, hp1⟩ := h1 hf
          rw [ht1]
          exact lt_of_lt_of_le hp1 (by simpa using le_max_left _ _)
        · obtain ⟨t1, ht1, hp1⟩ := h2 hf
          rw [ht1]
          exact lt_of_lt_of_le hp1 (by simpa using le_max_right _ _)

/-- C8: on every path, a returned `{ok:false}` decision carries a present,
strictly positive `retryAfter` and an empty update set, so consume
(`rateLimit`) persists no shard-state change on rejection. -/
theorem c8_rejection (db : ℚ → Option ShardState) (config : RateLimitConfig)
    (count : Option ℚ) (reserve : Bool) (now shardA randB pA pB pA2 pB2 : ℚ)
    (hrate : 0 < config.rate) (hper : 0 < config.period)
    (st : Status) (up : List Update)
    (hres : checkRateLimitSharded db config count reserve now shardA randB pA pB pA2 pB2 =
      .ok (st, up))
    (hok : st.ok = false) :
    (∃ t, st.retryAfter = some t ∧ 0 < t) ∧ up = [] ∧
    rateLimit db config count reserve false now shardA randB pA pB pA2 pB2 = .ok (st, db) := by
  have hmain : (∃ t, st.retryAfter = some t ∧ 0 < t) ∧ up = [] := by
    cases hval : validateRequest config count reserve with
    | error e =>
      rw [checkRateLimitSharded, hval] at hres
      exact Except.noConfusion hres
    | ok u =>
      cases u
      have hcrate : 0 < (shardConfig config config.shards).rate :=
        shardConfig_rate_pos config (validate_ok_shards_pos config count reserve hval) hrate
      have hcper : 0 < (shardConfig config config.shards).period := by
        rw [shardConfig_period]; exact hper
      rw [sharded_validate_ok db config count reserve now shardA randB pA pB pA2 pB2 hval]
        at hres
      by_cases hearly :
          ((checkShard db (shardConfig config config.shards) count reserve now pA
            shardA).existing = none ∨ shardsOrOne config.shards < MIN_CHOOSE_TWO)
      · rw [shardedBody_single db config count reserve now shardA randB pA pB pA2 pB2 hearly]
          at hres
        simp only [returnSingle, Except.ok.injEq, Prod.mk.injEq] at hres
        obtain ⟨hst, hup⟩ := hres
        have hof : (checkShard db (shardConfig config config.shards) count reserve now pA
            shardA).status.ok = false := by rw [hst]; exact hok
        obtain ⟨t, ht, hp, _⟩ := eval_not_ok (db shardA) (shardConfig config config.shards)
          (count.getD 1) reserve now pA hcrate hcper hof
        refine ⟨⟨t, ?_, hp⟩, ?_⟩
        · rw [← hst]; exact ht
        · rw [← hup, hof]
          simp
      · rw [shardedBody_cases db config count reserve now shardA randB pA pB pA2 pB2
          (checkShard db (shardConfig config config.shards) count reserve now pA shardA)
          (checkShard db (shardConfig config config.shards) count reserve now pB
            (jsMod ((checkShard db (shardConfig config config.shards) count reserve now pA
              shardA).shard + 1 + randB) (shardsOrOne config.shards)))
          rfl rfl hearly] at hres
        split_ifs at hres with hb1 hb2 hb3 hb4 hb5
        · simp only [returnSingle, Except.ok.injEq, Prod.mk.injEq] at hres
          rw [← hres.1, hb1.1] at hok
          exact Bool.noConfusion hok
        · simp only [returnSingle, Except.ok.injEq, Prod.mk.injEq] at hres
          rw [← hres.1, hb2.2] at hok
          exact Bool.noConfusion hok
        · simp only [returnSingle, Except.ok.injEq, Prod.mk.injEq] at hres
          rw [← hres.1, hb3.1] at hok
          exact Bool.noConfusion hok
        · simp only [returnSingle, Except.ok.injEq, Prod.mk.injEq] at hres
          rw [← hres.1, hb3.2] at hok
          exact Bool.noConfusion hok
        · refine combineShared_not_ok _ _ _ _ st up hres hok ?_ ?_
          · intro hf
            obtain ⟨t, ht, hp, _⟩ := eval_not_ok _ (shardConfig config config.shards) _
              reserve now pA2 hcrate hcper hf
            exact ⟨t, ht, hp⟩
          · intro hf
            obtain ⟨t, ht, hp, _⟩ := eval_not_ok _ (shardConfig config config.shards) _
              reserve now pB2 hcrate hcper hf
            exact ⟨t, ht, hp⟩
  refine ⟨hmain.1, hmain.2, ?_⟩
  have hup := hmain.2
  subst hup
  simp [rateLimit, checkRateLimitOrThrow, hres, applyUpdates]

/-- C8 witness: a drained single-shard token bucket rejects with
`retryAfter = 1000` and the consume handler leaves the store unchanged. -/
theorem c8_witness :
    (∃ t, (⟨false, some 1000⟩ : Status).retryAfter = some t ∧ 0 < t) ∧
    ([] : List Update) = [] ∧
    rateLimit (fun i => if i = 0 then some ⟨0, 0⟩ else none)
      ⟨Kind.tokenBucket, 1, 1000, none, none, none, none⟩ none false false 0 0 0 0 0 0 0 =
      .ok (⟨false, some 1000⟩, fun i => if i = 0 then some ⟨0, 0⟩ else none) :=
  c8_rejection (fun i => if i = 0 then some ⟨0, 0⟩ else none)
    ⟨Kind.tokenBucket, 1, 1000, none, none, none, none⟩ none false 0 0 0 0 0 0 0
    (by norm_num) (by norm_num) ⟨false, some 1000⟩ []
    (by simp only [checkRateLimitSharded, validateRequest, shardedBody, shardsOrOne,
          shardConfig, checkShard, returnSingle, _checkRateLimitInternal, qTruthy,
          MIN_CHOOSE_TWO];
        norm_num)
    rfl

theorem eval_value_le (e : Option ShardState) (c : RateLimitConfig) (cnt : ℚ) (rsv : Bool)
    (now ph : ℚ) (hcnt : 0 ≤ cnt) :
    (_checkRateLimitInternal e c cnt rsv now ph).value ≤ c.capacity.getD c.rate := by
  rw [eval_value]
  have := replenished_le_max e c now ph
  linarith

theorem eval_ok_bounds (e : Option ShardState) (c : RateLimitConfig) (cnt : ℚ) (rsv : Bool)
    (now ph : ℚ) (h : (_checkRateLimitInternal e c cnt rsv now ph).status.ok = true) :
    ((_checkRateLimitInternal e c cnt rsv now ph).value < 0 → rsv = true) ∧
    (∀ m, c.maxReserved = some m → m ≠ 0 →
      (_checkRateLimitInternal e c cnt rsv now ph).value < 0 →
      -(_checkRateLimitInternal e c cnt rsv now ph).value ≤ m) := by
  have hnot : ¬((_checkRateLimitInternal e c cnt rsv now ph).status.ok = false) := by
    rw [h]; exact fun hc => Bool.noConfusion hc
  rw [eval_ok_false_iff] at hnot
  push_neg at hnot
  constructor
  · intro hv
    rw [eval_value] at hv
    have := (hnot hv).1
    cases rsv
    · exact absurd rfl this
    · rfl
  · intro m hm hmne hv
    rw [eval_value] at hv
    have h2 := (hnot hv).2 (by simp [qTruthy, hm, hmne])
    rw [eval_value]
    rw [hm] at h2
    simpa using h2

theorem shardFactor_le (s : ℚ) (hs : 1 ≤ s) :
    (0 : ℚ) < (if s < MIN_CHOOSE_TWO then 1 else s / 2) ∧
    (if s < MIN_CHOOSE_TWO then 1 else s / 2) ≤ s := by
  unfold MIN_CHOOSE_TWO
  split_ifs with h
  · exact ⟨by norm_num, hs⟩
  · push_neg at h
    constructor <;> linarith

theorem div_antitone_of_le (m f s : ℚ) (hm : 0 ≤ m) (hf : 0 < f) (hfs : f ≤ s) :
    m / s ≤ m / f := by
  rcases eq_or_lt_of_le hm with hm0 | hm0
  · rw [← hm0]; simp
  · rw [div_le_div_iff (lt_of_lt_of_le hf hfs) hf]
    nlinarith

theorem combineShared_updates (one two : ShardCheck) (oS tS : EvalResult)
    (st : Status) (up : List Update)
    (hres : combineShared one two oS tS = .ok (st, up)) :
    up = [] ∨ (oS.status.ok = true ∧ tS.status.ok = true ∧
      up = [⟨oS.value, oS.ts, one.existing, one.shard⟩,
            ⟨tS.value, tS.ts, two.existing, two.shard⟩]) := by
  unfold combineShared at hres
  split_ifs at hres with hc hq
  · simp only [Except.ok.injEq, Prod.mk.injEq] at hres
    exact Or.inl hres.2.symm
  · simp only [Except.ok.injEq, Prod.mk.injEq] at hres
    by_cases hb : (oS.status.ok && tS.status.ok) = true
    · right
      obtain ⟨hb1, hb2⟩ := Bool.and_eq_true_iff.mp hb
      refine ⟨hb1, hb2, ?_⟩
      rw [← hres.2]
      simp [hb]
    · left
      rw [← hres.2]
      simp [Bool.eq_false_iff.mpr (fun hc2 => hb hc2)]
  · simp only [Except.ok.injEq, Prod.mk.injEq] at hres
    by_cases hb : (oS.status.ok && tS.status.ok) = true
    · right
      obtain ⟨hb1, hb2⟩ := Bool.and_eq_true_iff.mp hb
      refine ⟨hb1, hb2, ?_⟩
      rw [← hres.2]
      simp [hb]
    · left
      rw [← hres.2]
      simp [Bool.eq_false_iff.mpr (fun hc2 => hb hc2)]

theorem rebalance_eq (cfg : RateLimitConfig) (e1 e2 : Option ShardState)
    (v1 v2 c now pA pB pA2 pB2 : ℚ) (reserve : Bool)
    (hrate : 0 ≤ cfg.rate) (hper : 0 < cfg.period)
    (h1 : ∃ s, e1 = some s)
    (hv1 : v1 = replenished e1 cfg now pA - c)
    (hv2 : v2 = replenished e2 cfg now pB - c)
    (hph2 : e2 = none → cfg.kind = Kind.fixedWindow →
      cfg.start.getD pB ≤ now ∧ cfg.start.getD pB2 ≤ now) :
    (_checkRateLimitInternal e1 cfg (v1 + c - (v1 + v2 + c) / 2) reserve now pA2).value =
      (v1 + v2 + c) / 2 ∧
    (_checkRateLimitInternal e2 cfg (v2 + c - (v1 + v2 + c) / 2) reserve now pB2).value =
      (v1 + v2 + c) / 2 := by
  obtain ⟨s1, hs1⟩ := h1
  have hph1 : replenished e1 cfg now pA2 = replenished e1 cfg now pA := by
    rw [hs1]; exact replenished_phase_irrel s1 _ now pA2 pA
  have hph2' : replenished e2 cfg now pB2 = replenished e2 cfg now pB := by
    cases hx : e2 with
    | some s => exact replenished_phase_irrel s _ now pB2 pB
    | none =>
      rw [replenished_fresh _ now pB2 hrate hper (fun hk => (hph2 hx hk).2),
        replenished_fresh _ now pB hrate hper (fun hk => (hph2 hx hk).1)]
  constructor
  · rw [eval_value, hph1, hv1]; ring
  · rw [eval_value, hph2', hv2]; ring

theorem mem_ite_updates (X : ShardCheck) (u : Update)
    (hu : u ∈ (if X.status.ok = true
      then [(⟨X.value, X.ts, X.existing, X.shard⟩ : Update)] else [])) :
    X.status.ok = true ∧ u = ⟨X.value, X.ts, X.existing, X.shard⟩ := by
  split at hu
  · next h => exact ⟨h, by simpa using hu⟩
  · simp at hu

theorem shards_getD_pos (config : RateLimitConfig)
    (hsh : config.shards = none ∨ ∃ s : ℚ, config.shards = some s ∧ 1 ≤ s) :
    1 ≤ config.shards.getD 1 := by
  rcases hsh with h | ⟨s, hs, h1s⟩
  · rw [h]; norm_num
  · rw [hs]; simpa using h1s

theorem eval_update_le_max (config : RateLimitConfig) (e : Option ShardState) (cnt : ℚ)
    (reserve : Bool) (now ph : ℚ) (hcnt : 0 ≤ cnt) (hpos : 0 < config.shards.getD 1) :
    (_checkRateLimitInternal e (shardConfig config config.shards) cnt reserve now ph).value ≤
      config.capacity.getD config.rate / shardsOrOne config.shards := by
  have h := eval_value_le e (shardConfig config config.shards) cnt reserve now ph hcnt
  rwa [shardConfig_max_eq config hpos] at h

theorem eval_update_bounds (config : RateLimitConfig) (e : Option ShardState) (cnt : ℚ)
    (reserve : Bool) (now ph : ℚ)
    (hs1 : 1 ≤ config.shards.getD 1)
    (hok : (_checkRateLimitInternal e (shardConfig config config.shards) cnt
      reserve now ph).status.ok = true) :
    ((_checkRateLimitInternal e (shardConfig config config.shards) cnt
        reserve now ph).value < 0 → reserve = true) ∧
    (∀ m, config.maxReserved = some m → 0 < m →
      -(m / (if config.shards.getD 1 < MIN_CHOOSE_TWO then 1 else config.shards.getD 1 / 2)) ≤
        (_checkRateLimitInternal e (shardConfig config config.shards) cnt
          reserve now ph).value) := by
  have hpos : 0 < config.shards.getD 1 := lt_of_lt_of_le one_pos hs1
  have hb := eval_ok_bounds e (shardConfig config config.shards) cnt reserve now ph hok
  obtain ⟨hsf_pos, hsf_le⟩ := shardFactor_le (config.shards.getD 1) hs1
  refine ⟨hb.1, ?_⟩
  intro m hm hmp
  have hdivpos : 0 ≤ m / (if config.shards.getD 1 < MIN_CHOOSE_TWO then 1
      else config.shards.getD 1 / 2) := div_nonneg hmp.le hsf_pos.le
  by_cases hv : (_checkRateLimitInternal e (shardConfig config config.shards) cnt
      reserve now ph).value < 0
  · obtain ⟨hmr', hmrpos⟩ := shardConfig_maxReserved_pos config m hpos hm hmp
    have h2 := hb.2 (m / shardsOrOne config.shards) hmr' (ne_of_gt hmrpos) hv
    have h3 : m / shardsOrOne config.shards ≤
        m / (if config.shards.getD 1 < MIN_CHOOSE_TWO then 1
          else config.shards.getD 1 / 2) := by
      rw [shardsOrOne_of_pos _ hpos]
      exact div_antitone_of_le m _ _ hmp.le hsf_pos hsf_le
    linarith
  · push_neg at hv
    linarith

/-- C9 counterexample: with `maxReserved` set to `0` (falsy) and
`reserve = true`, a successful consume persists a shard value of `-1`,
strictly below the claimed lower bound `-maxReserved/shardFactor = 0`. -/
theorem c9_counterexample :
    checkRateLimitSharded (fun _ => none) ⟨Kind.tokenBucket, 1, 1, none, some 0, none, none⟩
      (some 2) true 0 0 0 0 0 0 0 =
      .ok (⟨true, some 1⟩, [⟨-1, 0, none, 0⟩]) ∧
    ((-1 : ℚ) < -((0 : ℚ) / 1)) := by
  constructor
  · simp only [checkRateLimitSharded, validateRequest, shardedBody, shardsOrOne, shardConfig,
      checkShard, returnSingle, _checkRateLimitInternal, qTruthy, MIN_CHOOSE_TWO]
    norm_num
  · norm_num

/-- C9 (amended): every persisted update's value is at most
`(capacity ?? rate)/shards`; a negative value is persisted only when `reserve`
was set; and when `maxReserved` is set **to a positive value**, every
persisted value is at least `-maxReserved/shardFactor`. -/
theorem c9_range_invariant (db : ℚ → Option ShardState) (config : RateLimitConfig)
    (count : Option ℚ) (reserve : Bool) (now shardA randB pA pB pA2 pB2 : ℚ)
    (hcnt : 0 ≤ count.getD 1)
    (hsh : config.shards = none ∨ ∃ s : ℚ, config.shards = some s ∧ 1 ≤ s)
    (hrate : 0 < config.rate) (hper : 0 < config.period)
    (hstart : config.kind = Kind.fixedWindow →
      config.start.getD pB ≤ now ∧ config.start.getD pB2 ≤ now)
    (st : Status) (up : List Update)
    (hres : checkRateLimitSharded db config count reserve now shardA randB pA pB pA2 pB2 =
      .ok (st, up)) :
    ∀ u ∈ up,
      u.value ≤ config.capacity.getD config.rate / shardsOrOne config.shards ∧
      (u.value < 0 → reserve = true) ∧
      (∀ m, config.maxReserved = some m → 0 < m →
        -(m / (if config.shards.getD 1 < MIN_CHOOSE_TWO then 1
          else config.shards.getD 1 / 2)) ≤ u.value) := by
  have hs1 : 1 ≤ config.shards.getD 1 := shards_getD_pos config hsh
  have hpos : 0 < config.shards.getD 1 := lt_of_lt_of_le one_pos hs1
  cases hval : validateRequest config count reserve with
  | error e =>
    rw [checkRateLimitSharded, hval] at hres
    exact Except.noConfusion hres
  | ok uu =>
    cases uu
    have hcrate : 0 < (shardConfig config config.shards).rate :=
      shardConfig_rate_pos config hpos hrate
    have hcper : 0 < (shardConfig config config.shards).period := by
      rw [shardConfig_period]; exact hper
    rw [sharded_validate_ok db config count reserve now shardA randB pA pB pA2 pB2 hval]
      at hres
    by_cases hearly :
        ((checkShard db (shardConfig config config.shards) count reserve now pA
          shardA).existing = none ∨ shardsOrOne config.shards < MIN_CHOOSE_TWO)
    · rw [shardedBody_single db config count reserve now shardA randB pA pB pA2 pB2 hearly]
        at hres
      simp only [returnSingle, Except.ok.injEq, Prod.mk.injEq] at hres
      intro u hu
      rw [← hres.2] at hu
      obtain ⟨hok, hueq⟩ := mem_ite_updates _ u hu
      subst hueq
      exact ⟨eval_update_le_max config (db shardA) (count.getD 1) reserve now pA hcnt hpos,
        (eval_update_bounds config (db shardA) (count.getD 1) reserve now pA hs1 hok).1,
        (eval_update_bounds config (db shardA) (count.getD 1) reserve now pA hs1 hok).2⟩
    · rw [shardedBody_cases db config count reserve now shardA randB pA pB pA2 pB2
        (checkShard db (shardConfig config config.shards) count reserve now pA shardA)
        (checkShard db (shardConfig config config.shards) count reserve now pB
          (jsMod ((checkShard db (shardConfig config config.shards) count reserve now pA
            shardA).shard + 1 + randB) (shardsOrOne config.shards)))
        rfl rfl hearly] at hres
      rw [not_or] at hearly
      split_ifs at hres with hb1 hb2 hb3 hb4 hb5
      · simp only [returnSingle, Except.ok.injEq, Prod.mk.injEq] at hres
        intro u hu
        rw [← hres.2] at hu
        obtain ⟨hok, hueq⟩ := mem_ite_updates _ u hu
        subst hueq
        exact ⟨eval_update_le_max config (db shardA) (count.getD 1) reserve now pA hcnt hpos,
          (eval_update_bounds config (db shardA) (count.getD 1) reserve now pA hs1 hok).1,
          (eval_update_bounds config (db shardA) (count.getD 1) reserve now pA hs1 hok).2⟩
      · simp only [returnSingle, Except.ok.injEq, Prod.mk.injEq] at hres
        intro u hu
        rw [← hres.2] at hu
        obtain ⟨hok, hueq⟩ := mem_ite_updates _ u hu
        subst hueq
        refine ⟨eval_update_le_max config _ (count.getD 1) reserve now pB hcnt hpos,
          (eval_update_bounds config _ (count.getD 1) reserve now pB hs1 hok).1,
          (eval_update_bounds config _ (count.getD 1) reserve now pB hs1 hok).2⟩
      · simp only [returnSingle, Except.ok.injEq, Prod.mk.injEq] at hres
        intro u hu
        rw [← hres.2] at hu
        obtain ⟨hok, hueq⟩ := mem_ite_updates _ u hu
        subst hueq
        exact ⟨eval_update_le_max config (db shardA) (count.getD 1) reserve now pA hcnt hpos,
          (eval_update_bounds config (db shardA) (count.getD 1) reserve now pA hs1 hok).1,
          (eval_update_bounds config (db shardA) (count.getD 1) reserve now pA hs1 hok).2⟩
      · simp only [returnSingle, Except.ok.injEq, Prod.mk.injEq] at hres
        intro u hu
        rw [← hres.2] at hu
        obtain ⟨hok, hueq⟩ := mem_ite_updates _ u hu
        subst hueq
        refine ⟨eval_update_le_max config _ (count.getD 1) reserve now pB hcnt hpos,
          (eval_update_bounds config _ (count.getD 1) reserve now pB hs1 hok).1,
          (eval_update_bounds config _ (count.getD 1) reserve now pB hs1 hok).2⟩
      · intro u hu
        rcases combineShared_updates _ _ _ _ st up hres with hup | ⟨hok1, hok2, hup⟩
        · rw [hup] at hu
          simp at hu
        · obtain ⟨s1, hs1e⟩ : ∃ s, (checkShard db (shardConfig config config.shards) count
              reserve now pA shardA).existing = some s := by
            cases hx : (checkShard db (shardConfig config config.shards) count reserve now pA
                shardA).existing with
            | none => exact absurd hx hearly.1
            | some s => exact ⟨s, rfl⟩
          have hv1 : (checkShard db (shardConfig config config.shards) count reserve now pA
              shardA).value = replenished (checkShard db (shardConfig config config.shards)
                count reserve now pA shardA).existing (shardConfig config config.shards) now
                pA - count.getD 1 :=
            eval_value (db shardA) (shardConfig config config.shards) (count.getD 1)
              reserve now pA
          have hv2 : (checkShard db (shardConfig config config.shards) count reserve now pB
              (jsMod ((checkShard db (shardConfig config config.shards) count reserve now pA
                shardA).shard + 1 + randB) (shardsOrOne config.shards))).value =
              replenished (checkShard db (shardConfig config config.shards) count reserve now
                pB (jsMod ((checkShard db (shardConfig config config.shards) count reserve now
                  pA shardA).shard + 1 + randB) (shardsOrOne config.shards))).existing
                (shardConfig config config.shards) now pB - count.getD 1 :=
            eval_value _ (shardConfig config config.shards) (count.getD 1) reserve now pB
          have hreb := rebalance_eq (shardConfig config config.shards)
            (checkShard db (shardConfig config config.shards) count reserve now pA
              shardA).existing
            (checkShard db (shardConfig config config.shards) count reserve now pB
              (jsMod ((checkShard db (shardConfig config config.shards) count reserve now pA
                shardA).shard + 1 + randB) (shardsOrOne config.shards))).existing
            (checkShard db (shardConfig config config.shards) count reserve now pA
              shardA).value
            (checkShard db (shardConfig config config.shards) count reserve now pB
              (jsMod ((checkShard db (shardConfig config config.shards) count reserve now pA
                shardA).shard + 1 + randB) (shardsOrOne config.shards))).value
            (count.getD 1) now pA pB pA2 pB2 reserve hcrate.le hcper ⟨s1, hs1e⟩ hv1 hv2
            (fun _ hk => by
              rw [shardConfig_kind] at hk
              rw [shardConfig_start]
              exact hstart hk)
          have hr1 : replenished (checkShard db (shardConfig config config.shards) count
              reserve now pA shardA).existing (shardConfig config config.shards) now pA ≤
              config.capacity.getD config.rate / shardsOrOne config.shards := by
            have h := replenished_le_max (checkShard db (shardConfig config config.shards)
              count reserve now pA shardA).existing (shardConfig config config.shards) now pA
            rwa [shardConfig_max_eq config hpos] at h
          have hr2 : replenished (checkShard db (shardConfig config config.shards) count
              reserve now pB (jsMod ((checkShard db (shardConfig config config.shards) count
                reserve now pA shardA).shard + 1 + randB)
                (shardsOrOne config.shards))).existing
              (shardConfig config config.shards) now pB ≤
              config.capacity.getD config.rate / shardsOrOne config.shards := by
            have h := replenished_le_max (checkShard db (shardConfig config config.shards)
              count reserve now pB (jsMod ((checkShard db (shardConfig config config.shards)
                count reserve now pA shardA).shard + 1 + randB)
                (shardsOrOne config.shards))).existing (shardConfig config config.shards)
              now pB
            rwa [shardConfig_max_eq config hpos] at h
          rw [hup] at hu
          simp only [List.mem_cons, List.mem_singleton, List.not_mem_nil, or_false] at hu
          rcases hu with hu1 | hu2
          · subst hu1
            refine ⟨?_, (eval_update_bounds config _ _ reserve now pA2 hs1 hok1).1,
              (eval_update_bounds config _ _ reserve now pA2 hs1 hok1).2⟩
            rw [hreb.1]
            rw [hv1, hv2] at *
            linarith
          · subst hu2
            refine ⟨?_, (eval_update_bounds config _ _ reserve now pB2 hs1 hok2).1,
              (eval_update_bounds config _ _ reserve now pB2 hs1 hok2).2⟩
            rw [hreb.2]
            rw [hv1, hv2] at *
            linarith


/-- C9 witness: a successful single-shard consume against a token bucket with
`maxReserved = 4` stays within the claimed range. -/
theorem c9_witness :
    ((1 : ℚ) ≤ (none : Option ℚ).getD 2 / shardsOrOne none) ∧
    ((1 : ℚ) < 0 → false = true) ∧
    (-((4 : ℚ) / (if (none : Option ℚ).getD 1 < MIN_CHOOSE_TWO then 1
      else (none : Option ℚ).getD 1 / 2)) ≤ 1) := by
  have hres9 : checkRateLimitSharded (fun _ => none)
      ⟨Kind.tokenBucket, 2, 1000, none, some 4, none, none⟩ (some 1) false 0 0 0 0 0 0 0 =
      .ok (⟨true, none⟩, [⟨1, 0, none, 0⟩]) := by
    simp only [checkRateLimitSharded, validateRequest, shardedBody, shardsOrOne,
      shardConfig, checkShard, returnSingle, _checkRateLimitInternal, qTruthy,
      MIN_CHOOSE_TWO]
    norm_num
  have h := c9_range_invariant (fun _ => none)
    ⟨Kind.tokenBucket, 2, 1000, none, some 4, none, none⟩ (some 1) false 0 0 0 0 0 0 0
    (by norm_num) (Or.inl rfl) (by norm_num) (by norm_num)
    (fun hk => absurd hk (by simp))
    ⟨true, none⟩ [⟨1, 0, none, 0⟩] hres9
    ⟨1, 0, none, 0⟩ (by simp)
  exact ⟨h.1, h.2.1, h.2.2 4 rfl (by norm_num)⟩

end RateLimiter
